import Mathlib

/-!
Verification development for the icon-to-SVG rendering core of the
`cp-react-icons` repository.

The embedding models:
* `applyPackSpecificColor` / `getSvgStringFromElement` (the SVG document
  assembler and pack-aware colorizer),
* `prepareSvgForClipboard` (the clipboard writer's XML fix-up step).

Modelling conventions:
* JavaScript `number` values are modelled as exact fractions (`Q`); `NaN`
  is modelled by `Option Q` with `none` for `NaN`.  The spec's arithmetic
  claims are about exact real arithmetic, which the fractions realise.
* DOM element trees are modelled by the inductive `Elem`; attribute state
  is an ordered association list, mirroring `setAttribute` (in-place update
  or append) and `removeAttribute`.
* DOM exceptions (`insertBefore` with a reference node that is not a child
  of the target) are modelled with `Except Unit`.
* Strings are processed as `List Char`; the regular-expression passes of
  the source are implemented as direct scanners with the same semantics.
-/

namespace CpIcons

/-- Exact fraction: numerator and (positive, by convention) denominator.
JavaScript numbers in the source are modelled as exact fractions. -/
structure Q where
  num : Int
  den : Nat
deriving DecidableEq

instance (n : Nat) : OfNat Q n := ⟨⟨Int.ofNat n, 1⟩⟩

/-- Addition of fractions (cross multiplication, no reduction). -/
def Q.add (a b : Q) : Q := ⟨a.num * b.den + b.num * a.den, a.den * b.den⟩

/-- Subtraction of fractions. -/
def Q.sub (a b : Q) : Q := ⟨a.num * b.den - b.num * a.den, a.den * b.den⟩

/-- Multiplication of fractions. -/
def Q.mul (a b : Q) : Q := ⟨a.num * b.num, a.den * b.den⟩

/-- Division of a fraction by a positive natural literal. -/
def Q.divNat (a : Q) (k : Nat) : Q := ⟨a.num, a.den * k⟩

/-- Comparison `a <= b` (valid for positive denominators). -/
def Q.le (a b : Q) : Bool := decide (a.num * b.den ≤ b.num * a.den)

/-- Comparison `a < b` (valid for positive denominators). -/
def Q.lt (a b : Q) : Bool := decide (a.num * b.den < b.num * a.den)

/-- Binary minimum, `Math.min` on non-`NaN` inputs. -/
def Q.min (a b : Q) : Q := if Q.le a b then a else b

/-- Digit character for a value below ten. -/
def digitChar (n : Nat) : Char := Char.ofNat (48 + n)

/-- Decimal digits of the fractional part `r / d`, at most `fuel` digits. -/
def fracDigits (d : Nat) : Nat → Nat → List Char
  | 0, _ => []
  | _ + 1, 0 => []
  | fuel + 1, r =>
    let r10 := r * 10
    digitChar (r10 / d) :: fracDigits d fuel (r10 % d)

/-- Decimal string of the non-negative fraction `n / d` (reduced input). -/
def decString (n d : Nat) : String :=
  let ds := fracDigits d 30 (n % d)
  if ds.isEmpty then toString (n / d) else toString (n / d) ++ "." ++ String.mk ds

/-- Canonical decimal string of a fraction, as JavaScript renders numbers
(`String(x)`): reduced, minus sign in front, no trailing zeros. -/
def Q.toStr (q : Q) : String :=
  let g := Int.gcd q.num q.den
  let g := if g = 0 then 1 else g
  let n := q.num / (g : Int)
  let d := q.den / g
  if n < 0 then "-" ++ decString n.natAbs d else decString n.toNat d

/-- JavaScript number including `NaN` (`none`). -/
abbrev JsN := Option Q

/-- NaN-propagating addition. -/
def jnAdd : JsN → JsN → JsN
  | some a, some b => some (a.add b)
  | _, _ => none

/-- NaN-propagating subtraction. -/
def jnSub : JsN → JsN → JsN
  | some a, some b => some (a.sub b)
  | _, _ => none

/-- NaN-propagating multiplication. -/
def jnMul : JsN → JsN → JsN
  | some a, some b => some (a.mul b)
  | _, _ => none

/-- NaN-propagating division by a positive natural literal. -/
def jnDivNat (a : JsN) (k : Nat) : JsN :=
  match a with
  | some a => some (a.divNat k)
  | none => none

/-- NaN-propagating `Math.min`. -/
def jnMin : JsN → JsN → JsN
  | some a, some b => some (Q.min a b)
  | _, _ => none

/-- Rendering of a JavaScript number as a string (`NaN` included). -/
def jnToStr : JsN → String
  | none => "NaN"
  | some q => q.toStr

/-- Whitespace predicate matching the JavaScript regex class `\s`
(ASCII part; the source only meets ASCII whitespace). -/
def isWs (c : Char) : Bool :=
  c == ' ' || c == Char.ofNat 9 || c == Char.ofNat 10 || c == Char.ofNat 13 ||
    c == Char.ofNat 11 || c == Char.ofNat 12

mutual
/-- State of `String.split(/\s+/)` while inside a token (`acc` reversed). -/
def swsTok (acc : List Char) : List Char → List (List Char)
  | [] => [acc.reverse]
  | c :: rest => if isWs c then acc.reverse :: swsSkip rest else swsTok (c :: acc) rest
/-- State of `String.split(/\s+/)` while consuming a whitespace run. -/
def swsSkip : List Char → List (List Char)
  | [] => [[]]
  | c :: rest => if isWs c then swsSkip rest else swsTok [c] rest
end

/-- JavaScript `s.split(/\s+/)`: splits on whitespace runs; leading or
trailing whitespace produces an empty first or last token. -/
def splitWs (s : String) : List String := (swsTok [] s.data).map String.mk

/-- JavaScript `String.prototype.trim` (both ends). -/
def trimStr (s : String) : String :=
  String.mk (((s.data.dropWhile isWs).reverse.dropWhile isWs).reverse)

/-- Decimal digit test. -/
def isDigit (c : Char) : Bool := '0' ≤ c && c ≤ '9'

/-- Consume a digit run, returning accumulated value, digit count, rest. -/
def takeDigits (acc k : Nat) : List Char → Nat × Nat × List Char
  | [] => (acc, k, [])
  | c :: r =>
    if isDigit c then takeDigits (acc * 10 + (c.toNat - 48)) (k + 1) r else (acc, k, c :: r)

/-- JavaScript `Number(token)` on the tokens the source feeds it (viewBox
fields): the empty string is `0`, signed decimal literals are parsed
exactly, anything else (including exotic forms) is `NaN` (`none`). -/
def jsNumber (s : String) : JsN :=
  match s.data with
  | [] => some ⟨0, 1⟩
  | l =>
    let (neg, l1) :=
      match l with
      | '-' :: r => (true, r)
      | '+' :: r => (false, r)
      | r => (false, r)
    let (ip, k1, l2) := takeDigits 0 0 l1
    match l2 with
    | [] =>
      if k1 = 0 then none
      else some ⟨(if neg then -1 else 1) * (ip : Int), 1⟩
    | '.' :: l3 =>
      let (fp, k2, l4) := takeDigits 0 0 l3
      if !l4.isEmpty then none
      else if k1 + k2 = 0 then none
      else some ⟨(if neg then -1 else 1) * ((ip * 10 ^ k2 + fp : Nat) : Int), 10 ^ k2⟩
    | _ => none

/-- Case-insensitive match of the (lowercase) pattern `key` at the head of
`x`; on success returns the remainder. -/
def dropCI (key : List Char) (x : List Char) : Option (List Char) :=
  match key, x with
  | [], r => some r
  | _ :: _, [] => none
  | k :: ks, c :: cs => if c.toLower == k then dropCI ks cs else none

/-- Match of one declaration `key\s*:\s*[^;]+;?` (the regex of the style
clean-up) at the head of `x`; on success returns the remainder after the
whole match. -/
def matchDecl (key : List Char) (x : List Char) : Option (List Char) :=
  match dropCI key x with
  | none => none
  | some r =>
    match r.dropWhile isWs with
    | ':' :: r2 =>
      let v := r2.takeWhile (fun c => c != ';')
      if v.isEmpty then none
      else
        match r2.drop v.length with
        | ';' :: t => some t
        | t => some t
    | _ => none

/-- Global scan of `replace(/key\s*:\s*[^;]+;?/gi, emptyString)`: fuel-indexed
(each step consumes at least one character, so fuel `x.length` is exact). -/
def removeDeclsF (key : List Char) : Nat → List Char → List Char
  | 0, x => x
  | fuel + 1, x =>
    match matchDecl key x with
    | some t => removeDeclsF key fuel t
    | none =>
      match x with
      | [] => []
      | c :: r => c :: removeDeclsF key fuel r

/-- Removal of every `key : value;` declaration from a style string, with
the global-regex semantics of the source. -/
def removeDecls (key : List Char) (x : List Char) : List Char :=
  removeDeclsF key x.length x

/-- The style clean-up of the source: strip `color`, then `stroke`, then
`fill` declarations, then trim. -/
def cleanStyle (s : String) : String :=
  trimStr (String.mk (removeDecls "fill".data (removeDecls "stroke".data
    (removeDecls "color".data s.data))))

/-- DOM element: tag name, ordered attribute list, ordered children. -/
inductive Elem where
  | mk (tag : String) (attrs : List (String × String)) (children : List Elem)

/-- Tag of an element. -/
def Elem.tag : Elem → String
  | .mk t _ _ => t

/-- Attribute list of an element. -/
def Elem.attrs : Elem → List (String × String)
  | .mk _ a _ => a

/-- Children of an element. -/
def Elem.children : Elem → List Elem
  | .mk _ _ c => c

mutual
/-- Decidable structural equality on elements. -/
def decEqElem : (a b : Elem) → Decidable (a = b)
  | .mk t a c, .mk u b d =>
    match String.decEq t u with
    | isFalse h => isFalse (fun hh => by cases hh; exact h rfl)
    | isTrue ht =>
      match (inferInstance : DecidableEq (List (String × String))) a b with
      | isFalse h => isFalse (fun hh => by cases hh; exact h rfl)
      | isTrue ha =>
        match decEqElemList c d with
        | isTrue hc => isTrue (by rw [ht, ha, hc])
        | isFalse h => isFalse (fun hh => by cases hh; exact h rfl)
/-- Decidable structural equality on element lists. -/
def decEqElemList : (a b : List Elem) → Decidable (a = b)
  | [], [] => isTrue rfl
  | [], _ :: _ => isFalse (by simp)
  | _ :: _, [] => isFalse (by simp)
  | e :: r, f :: s =>
    match decEqElem e f with
    | isFalse h => isFalse (fun hh => by cases hh; exact h rfl)
    | isTrue he =>
      match decEqElemList r s with
      | isTrue hr => isTrue (by rw [he, hr])
      | isFalse h => isFalse (fun hh => by cases hh; exact h rfl)
end

instance : DecidableEq Elem := decEqElem

/-- `getAttribute`: first binding of the name, `null` (`none`) if absent. -/
def getA : List (String × String) → String → Option String
  | [], _ => none
  | (k, v) :: r, n => if k == n then some v else getA r n

/-- `setAttribute`: update the existing binding in place, else append. -/
def setA : List (String × String) → String → String → List (String × String)
  | [], n, v => [(n, v)]
  | (k, w) :: r, n, v => if k == n then (k, v) :: r else (k, w) :: setA r n v

/-- `removeAttribute`: drop the binding of the name. -/
def remA (l : List (String × String)) (n : String) : List (String × String) :=
  l.filter (fun p => p.1 != n)

/-- `getAttribute` on an element. -/
def Elem.getAttr (e : Elem) (n : String) : Option String := getA e.attrs n

/-- `setAttribute` on an element. -/
def Elem.setAttr (e : Elem) (n v : String) : Elem := .mk e.tag (setA e.attrs n v) e.children

/-- `removeAttribute` on an element. -/
def Elem.removeAttr (e : Elem) (n : String) : Elem := .mk e.tag (remA e.attrs n) e.children

/-- `hasAttribute` on an element. -/
def Elem.hasAttr (e : Elem) (n : String) : Bool := (getA e.attrs n).isSome

/-- ASCII lowercasing of a string (`tagName.toLowerCase()`). -/
def toLowerStr (s : String) : String := String.mk (s.data.map Char.toLower)

/-- The shape tags of `applyPackSpecificColor`. -/
def shapeTags : List String :=
  ["path", "circle", "rect", "ellipse", "line", "polyline", "polygon"]

/-- Style attribute clean-up shared by `applyPackSpecificColor` and the
root processing of `getSvgStringFromElement` (lines 55-68 and 129-141 of
the source): a truthy `style` attribute is cleaned of `color`, `stroke`
and `fill` declarations, and removed when the cleaned string is empty. -/
def styleStep (e : Elem) : Elem :=
  match e.getAttr "style" with
  | none => e
  | some s =>
    if s == "" then e
    else
      let c := cleanStyle s
      if c == "" then e.removeAttr "style" else e.setAttr "style" c

/-- Group attribute stripping (source lines 15-19): groups lose their
`stroke`, `fill` and `stroke-width` attributes. -/
def gStrip (e : Elem) (isG : Bool) : Elem :=
  if isG then ((e.removeAttr "stroke").removeAttr "fill").removeAttr "stroke-width" else e

/-- The pack dispatch of `applyPackSpecificColor` (source lines 21-53). -/
def packStep (e : Elem) (color : String) (packId : Option String)
    (isShapeElement : Bool) : Elem :=
  match packId with
  | some "feather" =>
    if isShapeElement then
      ((e.setAttr "stroke" color).setAttr "fill" "none").setAttr "stroke-width" "2"
    else e
  | some "phosphor" =>
    let e := e.setAttr "fill" color
    if e.hasAttr "stroke" then e.setAttr "stroke" "none" else e
  | _ =>
    let strokeValue := e.getAttr "stroke"
    let fillValue := e.getAttr "fill"
    let e :=
      match strokeValue with
      | some v => if v != "none" then e.setAttr "stroke" color else e
      | none => e
    match fillValue with
    | some v => if v != "none" then e.setAttr "fill" color else e
    | none => e

/-- `applyPackSpecificColor` (source lines 7-69): pack-aware recolouring of
one element (children untouched). -/
def applyPackSpecificColor (e : Elem) (color : String) (packId : Option String) : Elem :=
  let tagName := toLowerStr e.tag
  let isShapeElement := shapeTags.contains tagName
  if !isShapeElement && tagName != "g" then e
  else styleStep (packStep (gStrip e (tagName == "g")) color packId isShapeElement)

mutual
/-- The recursive `applyColor` closure of `getSvgStringFromElement`
(source lines 176-180): colourize an element, then its children. -/
def applyColorRec (color : String) (packId : Option String) : Elem → Elem
  | .mk t a c =>
    let e := applyPackSpecificColor (.mk t a c) color packId
    .mk e.tag e.attrs (applyColorList color packId c)
/-- `applyColor` mapped over a child list. -/
def applyColorList (color : String) (packId : Option String) : List Elem → List Elem
  | [] => []
  | e :: r => applyColorRec color packId e :: applyColorList color packId r
end

mutual
/-- First match of a predicate in a pre-order walk of a forest, reporting
whether the matched node has a following sibling (its `nextSibling`). -/
def locList (p : Elem → Bool) : List Elem → Option Bool
  | [] => none
  | d :: rest =>
    if p d then some (!rest.isEmpty)
    else
      match locElem p d with
      | some b => some b
      | none => locList p rest
/-- First match of a predicate among the strict descendants of a node. -/
def locElem (p : Elem → Bool) : Elem → Option Bool
  | .mk _ _ c => locList p c
end

/-- Location of the first `querySelector` match relative to the root
element whose children are scanned: not found, a direct child (index and
whether it has a next sibling), or a nested descendant (ditto).  DOM node
identity makes a nested match's `nextSibling` never a child of the root,
which is what `insertBefore` on the root checks. -/
inductive QLoc where
  | missing
  | root (i : Nat) (hasNext : Bool)
  | nested (hasNext : Bool)
deriving DecidableEq

/-- `querySelector` location of the first pre-order match in a child list. -/
def qloc (p : Elem → Bool) : List Elem → QLoc
  | [] => .missing
  | d :: rest =>
    if p d then .root 0 (!rest.isEmpty)
    else
      match locElem p d with
      | some b => .nested b
      | none =>
        match qloc p rest with
        | .missing => .missing
        | .root i b => .root (i + 1) b
        | .nested b => .nested b

/-- Numeric view box (x, y, width, height); fields may be `NaN`. -/
structure Box where
  x : JsN
  y : JsN
  w : JsN
  h : JsN
deriving DecidableEq

/-- Rendering of a box as a `viewBox` attribute string. -/
def boxStr (b : Box) : String :=
  jnToStr b.x ++ " " ++ jnToStr b.y ++ " " ++ jnToStr b.w ++ " " ++ jnToStr b.h

/-- Padding amount `min(width, height) * padding` of the geometry engine. -/
def paddingAmount (w h : JsN) (padding : Q) : JsN := jnMul (jnMin w h) (some padding)

/-- Condition `padding > 0 && padding <= 0.5` of the source. -/
def paddingOn (padding : Q) : Bool := Q.lt 0 padding && Q.le padding ⟨1, 2⟩

/-- View-box expansion of the source (lines 162-172): grow symmetrically by
the padding amount when `padding ∈ (0, 0.5]`, else identity. -/
def expandBox (b : Box) (padding : Q) : Box :=
  if paddingOn padding then
    let p := paddingAmount b.w b.h padding
    ⟨jnSub b.x p, jnSub b.y p, jnAdd b.w (jnMul p (some 2)), jnAdd b.h (jnMul p (some 2))⟩
  else b

/-- The `viewBoxValues` computation (source lines 150-160): split on
whitespace, map `Number`, and replace by the default `0 0 24 24` when the
token count is not four. -/
def viewBoxNums (v : String) : Box :=
  match (splitWs v).map jsNumber with
  | [a, b, c, d] => ⟨a, b, c, d⟩
  | _ => ⟨some 0, some 0, some 24, some 24⟩

/-- Corner radius in view-box units: `min(w, h) * cornerRadius / 100`. -/
def radiusOf (b : Box) (cornerRadius : Q) : JsN :=
  jnDivNat (jnMul (jnMin b.w b.h) (some cornerRadius)) 100

/-- The `defs`/`clipPath` subtree built for a positive corner radius
(source lines 188-209), with the stroke buffer for the Feather pack. -/
def clipDefs (b : Box) (radius : JsN) (buffer : Q) : Elem :=
  .mk "defs" []
    [.mk "clipPath" [("id", "rounded-corner-clip"), ("clipPathUnits", "userSpaceOnUse")]
      [.mk "rect"
        [("x", jnToStr (jnSub b.x (some buffer))),
         ("y", jnToStr (jnSub b.y (some buffer))),
         ("width", jnToStr (jnAdd b.w (some (Q.mul buffer 2)))),
         ("height", jnToStr (jnAdd b.h (some (Q.mul buffer 2)))),
         ("rx", jnToStr radius),
         ("ry", jnToStr radius),
         ("stroke", "none"),
         ("stroke-width", "0")] []]]

/-- The background rectangle (source lines 232-242). -/
def bgRectFor (b : Box) (radius : JsN) (bgColor : String) : Elem :=
  .mk "rect"
    [("x", jnToStr b.x), ("y", jnToStr b.y),
     ("width", jnToStr b.w), ("height", jnToStr b.h),
     ("rx", jnToStr radius), ("ry", jnToStr radius),
     ("fill", bgColor), ("stroke", "none"), ("stroke-width", "0")] []

/-- The invisible guard rectangle (source lines 257-268). -/
def guardRectFor (b : Box) (radius : JsN) : Elem :=
  .mk "rect"
    [("x", jnToStr b.x), ("y", jnToStr b.y),
     ("width", jnToStr b.w), ("height", jnToStr b.h),
     ("rx", jnToStr radius), ("ry", jnToStr radius),
     ("fill", "#ffffff"), ("opacity", "0.001"),
     ("stroke", "none"), ("stroke-width", "0")] []

/-- Predicate of `querySelector('defs')`. -/
def isDefsQ (e : Elem) : Bool := e.tag == "defs"

/-- Predicate of `querySelector('rect[fill]:not([opacity="0.001"])')`. -/
def isBgQ (e : Elem) : Bool :=
  e.tag == "rect" && e.hasAttr "fill" && !(e.getAttr "opacity" == some "0.001")

/-- Marked child: `true` marks original icon content (the nodes collected
into `originalIconContent`), `false` marks defs and inserted rectangles. -/
abbrev MChild := Bool × Elem

/-- `insertBefore(x, firstChild?.nextSibling || null)` on a child list. -/
def insertSecond (x : MChild) : List MChild → List MChild
  | [] => [x]
  | c :: rest => c :: x :: rest

/-- Background insertion (source lines 243-251): after the first `defs`
when it has a next sibling; at the second position when a `defs` exists
without one; at the front otherwise.  A nested `defs` with a next sibling
makes `insertBefore` throw (`NotFoundError`), modelled as `Except.error`. -/
def insertBg (bg : MChild) (ms : List MChild) : Except Unit (List MChild) :=
  match qloc isDefsQ (ms.map Prod.snd) with
  | .root i true => .ok (ms.insertIdx (i + 1) bg)
  | .root _ false => .ok (insertSecond bg ms)
  | .nested true => .error ()
  | .nested false => .ok (insertSecond bg ms)
  | .missing => .ok (bg :: ms)

/-- Guard-rectangle insertion (source lines 269-280): after the first
`rect[fill]:not([opacity="0.001"])` when it has a next sibling, else the
`defs` cascade, else at the front.  A nested query hit with a next sibling
makes `insertBefore` throw. -/
def insertGuard (gr : MChild) (ms : List MChild) : Except Unit (List MChild) :=
  match qloc isBgQ (ms.map Prod.snd) with
  | .root i true => .ok (ms.insertIdx (i + 1) gr)
  | .nested true => .error ()
  | _ =>
    match qloc isDefsQ (ms.map Prod.snd) with
    | .root i true => .ok (ms.insertIdx (i + 1) gr)
    | .root _ false => .ok (insertSecond gr ms)
    | .nested true => .error ()
    | .nested false => .ok (insertSecond gr ms)
    | .missing => .ok (gr :: ms)

mutual
/-- First element satisfying a predicate in a pre-order walk (self first). -/
def findElem (p : Elem → Bool) : Elem → Option Elem
  | .mk t a c => if p (.mk t a c) then some (.mk t a c) else findList p c
/-- First element satisfying a predicate in a pre-order walk of a forest. -/
def findList (p : Elem → Bool) : List Elem → Option Elem
  | [] => none
  | e :: r =>
    match findElem p e with
    | some x => some x
    | none => findList p r
end

/-- `querySelector` on an element: first matching descendant (self excluded). -/
def querySel (p : Elem → Bool) (e : Elem) : Option Elem := findList p e.children

/-- Root extraction (source lines 109-113): `querySelector('svg')` on the
icon element, falling back to the element itself when its tag is `svg`;
the found candidate is re-checked to have tag `svg`. -/
def extractSvg (icon : Elem) : Option Elem :=
  let svg :=
    match querySel (fun e => e.tag == "svg") icon with
    | some s => some s
    | none => if icon.tag == "svg" then some icon else none
  match svg with
  | some s => if s.tag != "svg" then none else some s
  | none => none

/-- Root attribute processing (source lines 118-141): set `width` and
`height`, strip colour-bearing attributes, clean the inline style. -/
def rootPrep (svg : Elem) (size : Q) : Elem :=
  styleStep ((((((svg.setAttr "width" size.toStr).setAttr "height"
    size.toStr).removeAttr "color").removeAttr "stroke").removeAttr "fill").removeAttr
    "stroke-width")

/-- The `viewBox` read with default (source lines 143-148): a missing or
empty (falsy) attribute is replaced with `0 0 24 24`, also on the element. -/
def viewBoxRead (e : Elem) : String × Elem :=
  match e.getAttr "viewBox" with
  | none => ("0 0 24 24", e.setAttr "viewBox" "0 0 24 24")
  | some v => if v == "" then ("0 0 24 24", e.setAttr "viewBox" "0 0 24 24") else (v, e)

/-- Root stage of `getSvgStringFromElement` (source lines 116-172): root
attribute processing, view-box read with default, padding expansion; the
result is the processed root element and the expanded box. -/
def rootStage (svg : Elem) (size padding : Q) : Elem × Box :=
  let r := viewBoxRead (rootPrep svg size)
  let box := expandBox (viewBoxNums r.1) padding
  (if paddingOn padding then r.2.setAttr "viewBox" (boxStr box) else r.2, box)

/-- Collection and colourization of the icon content (source lines
217-226): `defs` children are excluded from `originalIconContent` (marked
`false`) and left untouched; all other children are colourized and marked
`true`. -/
def contentOf (iconColor : String) (packId : Option String) (cs : List Elem) : List MChild :=
  cs.map fun ch =>
    if toLowerStr ch.tag == "defs" then (false, ch)
    else (true, applyColorRec iconColor packId ch)

/-- The stroke buffer of the clip rectangle: one view-box unit for the
Feather pack, zero otherwise (source line 197). -/
def bufferFor (packId : Option String) : Q := if packId == some "feather" then 1 else 0

/-- Child list before insertions: clip-path `defs` (when the corner radius
is positive) in front of the marked icon content. -/
def msInit (box : Box) (iconColor : String) (cornerRadius : Q) (packId : Option String)
    (cs : List Elem) : List MChild :=
  if Q.lt 0 cornerRadius then
    (false, clipDefs box (radiusOf box cornerRadius) (bufferFor packId)) ::
      contentOf iconColor packId cs
  else contentOf iconColor packId cs

/-- Final step (source lines 283-290): when a clip group exists, the
marked icon content is moved into it and the group appended at the end. -/
def finStep (cornerRadius : Q) (ms : List MChild) : List Elem :=
  if Q.lt 0 cornerRadius then
    (ms.filter fun m => !m.1).map Prod.snd ++
      [Elem.mk "g" [("clip-path", "url(#rounded-corner-clip)")]
        ((ms.filter fun m => m.1).map Prod.snd)]
  else ms.map Prod.snd

/-- Child-list construction of `getSvgStringFromElement` (source lines
182-291): clip-path defs, background insertion, guard insertion, and the
final move of the icon content into the clipped group. -/
def buildChildren (box : Box) (iconColor bgColor : String) (cornerRadius : Q) (padOn : Bool)
    (packId : Option String) (cs : List Elem) : Except Unit (List Elem) :=
  let ms1 := msInit box iconColor cornerRadius packId cs
  let msBg := if bgColor != "transparent" then
    insertBg (false, bgRectFor box (radiusOf box cornerRadius) bgColor) ms1 else .ok ms1
  match msBg with
  | .error u => .error u
  | .ok ms2 =>
    let msGr := if padOn then insertGuard (false, guardRectFor box (radiusOf box cornerRadius)) ms2
      else .ok ms2
    match msGr with
    | .error u => .error u
    | .ok ms3 => .ok (finStep cornerRadius ms3)

/-- `getSvgStringFromElement` after successful root extraction (source
lines 116-293), producing the final element tree; `Except.error` models a
thrown DOM exception. -/
def assembleCore (svg : Elem) (iconColor bgColor : String) (size padding cornerRadius : Q)
    (packId : Option String) : Except Unit Elem :=
  let r := rootStage svg size padding
  (buildChildren r.2 iconColor bgColor cornerRadius (paddingOn padding) packId
    r.1.children).map fun fin => Elem.mk r.1.tag r.1.attrs fin

/-- `getSvgStringFromElement` down to the element tree: `ok none` is the
`return null` path, `error` a thrown DOM exception. -/
def assembleE (iconElement : Option Elem) (iconColor bgColor : String)
    (size padding cornerRadius : Q) (packId : Option String) : Except Unit (Option Elem) :=
  match iconElement with
  | none => .ok none
  | some el =>
    match extractSvg el with
    | none => .ok none
    | some svg => (assembleCore svg iconColor bgColor size padding cornerRadius packId).map some

/-- Attribute serialization for `outerHTML`. -/
def attrsStr : List (String × String) → String
  | [] => ""
  | (k, v) :: r => " " ++ k ++ "=\"" ++ v ++ "\"" ++ attrsStr r

mutual
/-- `outerHTML` of the element tree. -/
def serialize : Elem → String
  | .mk t a c => "<" ++ t ++ attrsStr a ++ ">" ++ serializeList c ++ "</" ++ t ++ ">"
/-- `outerHTML` of a forest. -/
def serializeList : List Elem → String
  | [] => ""
  | e :: r => serialize e ++ serializeList r
end

/-- The full `getSvgStringFromElement`: the returned markup string is the
serialization of the assembled tree. -/
def getSvgStringFromElement (iconElement : Option Elem) (iconColor bgColor : String)
    (size padding cornerRadius : Q) (packId : Option String) : Except Unit (Option String) :=
  (assembleE iconElement iconColor bgColor size padding cornerRadius packId).map
    (Option.map serialize)

/-- List-level `startsWith`. -/
def startsWithL : List Char → List Char → Bool
  | [], _ => true
  | _ :: _, [] => false
  | p :: ps, c :: cs => p == c && startsWithL ps cs

/-- List-level substring containment (`String.prototype.includes`). -/
def containsSub (pat : List Char) : List Char → Bool
  | [] => startsWithL pat []
  | x@(_ :: r) => startsWithL pat x || containsSub pat r

/-- The XML declaration prepended by `prepareSvgForClipboard`. -/
def xmlDecl : String := "<?xml version=\"1.0\" encoding=\"UTF-8\"?>"

/-- The namespace attribute text inserted by `prepareSvgForClipboard`. -/
def xmlnsIns : List Char := (" xmlns=\"http://www.w3.org/2000/svg\"").data

/-- Split a character list at its first `>`. -/
def findGt : List Char → Option (List Char × List Char)
  | [] => none
  | c :: r =>
    if c == '>' then some ([], r)
    else
      match findGt r with
      | some (a, b) => some (c :: a, b)
      | none => none

/-- `replace(/<svg([^>]*)>/, '<svg$1 xmlns="http://www.w3.org/2000/svg">')`:
replace the first `<svg ...>` opening tag, inserting the namespace. -/
def xrepl : List Char → List Char
  | [] => []
  | c :: rest =>
    if startsWithL ("<svg").data (c :: rest) then
      match findGt ((c :: rest).drop 4) with
      | some (att, after) => ("<svg").data ++ att ++ xmlnsIns ++ ('>' :: after)
      | none => c :: rest
    else c :: xrepl rest

/-- `prepareSvgForClipboard` (clipboard.ts lines 4-18): prepend the XML
declaration unless the trimmed input starts with `<?xml`; add a default
`xmlns` to the first `<svg ...>` tag unless `xmlns=` or `xmlns:` occurs. -/
def prepareSvgForClipboard (svg : String) : String :=
  let svg :=
    if !startsWithL ("<?xml").data (trimStr svg).data then xmlDecl ++ svg else svg
  if !containsSub ("xmlns=").data svg.data && !containsSub ("xmlns:").data svg.data then
    String.mk (xrepl svg.data)
  else svg

mutual
/-- Pre-order flattening of an element tree: the order in which opening
tags appear in the serialized document. -/
def preOrder : Elem → List Elem
  | .mk t a c => .mk t a c :: preOrderList c
/-- Pre-order flattening of a forest. -/
def preOrderList : List Elem → List Elem
  | [] => []
  | e :: r => preOrder e ++ preOrderList r
end

mutual
/-- Some node of the tree (self included) satisfies the predicate. -/
def anyElem (p : Elem → Bool) : Elem → Bool
  | .mk t a c => p (.mk t a c) || anyList p c
/-- Some node of the forest satisfies the predicate. -/
def anyList (p : Elem → Bool) : List Elem → Bool
  | [] => false
  | e :: r => anyElem p e || anyList p r
end

/-- Shape-element test (the seven shape tags, lowercased). -/
def isShapeB (e : Elem) : Bool := shapeTags.contains (toLowerStr e.tag)

/-- Guard-rectangle test: a `rect` with fill `#ffffff` and opacity `0.001`. -/
def isGuardB (e : Elem) : Bool :=
  e.tag == "rect" && e.getAttr "fill" == some "#ffffff" && e.getAttr "opacity" == some "0.001"

/-- Number of nodes of the tree satisfying a predicate. -/
def countP (p : Elem → Bool) (e : Elem) : Nat := ((preOrder e).filter p).length

/-- Some element satisfying `a` appears strictly before one satisfying `b`. -/
def scanBefore (a b : Elem → Bool) : List Elem → Bool
  | [] => false
  | x :: r => (a x && r.any b) || scanBefore a b r

/-- Concrete icon for the C1 witness: the spec's scenario icon. -/
def wIcon1 : Elem := .mk "svg" [("viewBox", "0 0 24 24")] [.mk "path" [("d", "M3 6h18")] []]

/-- Concrete icon for the C10 witness: `svg` root without a `viewBox`. -/
def wIcon10 : Elem := .mk "svg" [] [.mk "path" [("d", "M2 2")] []]

/-- Document assembled from `wIcon1` with `cornerRadiusPercent = 50` and a
black background (the spec's second scenario), for the C5 witness. -/
def wDoc5 : Elem :=
  match assembleE (some wIcon1) "#ff0000" "#000000" 64 ⟨1, 10⟩ 50 (some "feather") with
  | .ok (some d) => d
  | _ => .mk "" [] []

/-- Document assembled from `wIcon1` with zero padding, for the C6 witness. -/
def wDoc6 : Elem :=
  match assembleE (some wIcon1) "#ff0000" "#112233" 64 0 25 (some "feather") with
  | .ok (some d) => d
  | _ => .mk "" [] []

/-- Concrete element for the C7 counterexample: its inline style is not a
fixed point of the single-pass declaration clean-up (removing the inner
`stroke: a;` uncovers a fresh `stroke: b` declaration). -/
def wShape7 : Elem := .mk "path" [("style", "strostroke: a;ke: b")] []

/-- Concrete element for the C7 witness: a shape whose inline style is
cleaned idempotently. -/
def wShape7b : Elem :=
  .mk "path" [("stroke", "red"), ("style", "stroke: a; border: 1px")] []

def wIcon2 : Elem := .mk "svg" [] [.mk "rect" [] [], .mk "path" [("d", "M1 1")] []]

def wDoc2 : Elem :=
  match assembleE (some wIcon2) "#ff0000" "transparent" 64 ⟨1, 10⟩ 0 (some "feather") with
  | .ok (some d) => d
  | _ => .mk "" [] []

def wIcon4c : Elem := .mk "svg" [] [.mk "path" [("d", "M2 2")] [], .mk "defs" [] []]

def wDoc4 : Elem :=
  match assembleE (some wIcon4c) "#ff0000" "#112233" 64 0 0 (some "feather") with
  | .ok (some d) => d
  | _ => .mk "" [] []

def wIcon8 : Elem := .mk "svg" [] [.mk "g" [] [.mk "defs" [] [], .mk "path" [] []]]

def wIconC : Elem :=
  .mk "svg" [("viewBox", "0 0 24 24")] [.mk "path" [("d", "M3 6h18")] [], .mk "circle" [] []]

def wDocC2 : Elem :=
  match assembleE (some wIconC) "#00ff00" "#000000" 64 ⟨1, 10⟩ 0 (some "feather") with
  | .ok (some d) => d
  | _ => .mk "" [] []

def wDocC4 : Elem :=
  match assembleE (some wIconC) "#00ff00" "#112233" 64 ⟨1, 10⟩ 25 (some "feather") with
  | .ok (some d) => d
  | _ => .mk "" [] []

def wSvg9 : String := "<?xml version=\"1.1\"?><svg xmlns:a=\"b\"></svg>"

def wSvg9b : String := "<svg viewBox=\"0 0 24 24\"></svg>"

end CpIcons

namespace CpIcons

theorem getA_setA_self (l : List (String × String)) (n v : String) :
    getA (setA l n v) n = some v := by
  induction l with
  | nil => simp [getA, setA]
  | cons p r ih =>
    rcases p with ⟨pk, pv⟩
    by_cases h : pk = n
    · simp [getA, setA, h]
    · simp [getA, setA, h, ih]

theorem getA_setA_ne (l : List (String × String)) (k n v : String) (h : k ≠ n) :
    getA (setA l k v) n = getA l n := by
  induction l with
  | nil => simp [getA, setA, h]
  | cons p r ih =>
    rcases p with ⟨pk, pv⟩
    by_cases hp : pk = k
    · subst hp
      simp [getA, setA, h]
    · by_cases hn : pk = n
      · simp [getA, setA, hp, hn, Ne.symm h]
      · simp [getA, setA, hp, hn, ih]

theorem getA_remA_ne (l : List (String × String)) (k n : String) (h : k ≠ n) :
    getA (remA l k) n = getA l n := by
  induction l with
  | nil => simp [getA, remA]
  | cons p r ih =>
    rcases p with ⟨pk, pv⟩
    by_cases hp : pk = k
    · subst hp
      have hne : ¬ pk = n := fun hh => h (hh ▸ rfl)
      simp only [remA, List.filter_cons] at ih ⊢
      simp only [bne_self_eq_false, Bool.false_eq_true, if_false, getA, hne] at ih ⊢
      simp [ih, hne]
    · have hb : (pk != k) = true := by simp [bne_iff_ne, hp]
      by_cases hn : pk = n
      · simp only [remA, List.filter_cons, hb, if_true, getA, hn]
        simp [getA, Ne.symm h]
      · simp only [remA, List.filter_cons, hb, if_true, getA, hn]
        simp only [remA] at ih
        simp [hn, ih]

theorem Elem.getAttr_mk (t : String) (a : List (String × String)) (c : List Elem) (n : String) :
    (Elem.mk t a c).getAttr n = getA a n := rfl

theorem Elem.getAttr_setAttr_self (e : Elem) (n v : String) :
    (e.setAttr n v).getAttr n = some v := by
  cases e; simp [Elem.setAttr, Elem.getAttr, Elem.attrs, getA_setA_self]

theorem Elem.getAttr_setAttr_ne (e : Elem) (k n v : String) (h : k ≠ n) :
    (e.setAttr k v).getAttr n = e.getAttr n := by
  cases e; simp [Elem.setAttr, Elem.getAttr, Elem.attrs, getA_setA_ne _ _ _ _ h]

theorem Elem.getAttr_removeAttr_ne (e : Elem) (k n : String) (h : k ≠ n) :
    (e.removeAttr k).getAttr n = e.getAttr n := by
  cases e; simp [Elem.removeAttr, Elem.getAttr, Elem.attrs, getA_remA_ne _ _ _ h]

theorem styleStep_getAttr_ne (e : Elem) (n : String) (h : n ≠ "style") :
    (styleStep e).getAttr n = e.getAttr n := by
  unfold styleStep
  cases hs : e.getAttr "style" with
  | none => rfl
  | some s =>
    by_cases he : s == ""
    · simp [he]
    · simp only [he, if_neg, Bool.false_eq_true, not_false_eq_true]
      by_cases hc : cleanStyle s == ""
      · simp [hc, Elem.getAttr_removeAttr_ne _ _ _ (Ne.symm h)]
      · simp [hc, Elem.getAttr_setAttr_ne _ _ _ _ (Ne.symm h)]

theorem rootPrep_getAttr_viewBox (svg : Elem) (size : Q) :
    (rootPrep svg size).getAttr "viewBox" = svg.getAttr "viewBox" := by
  unfold rootPrep
  rw [styleStep_getAttr_ne _ _ (by decide)]
  rw [Elem.getAttr_removeAttr_ne _ _ _ (by decide), Elem.getAttr_removeAttr_ne _ _ _ (by decide)]
  rw [Elem.getAttr_removeAttr_ne _ _ _ (by decide), Elem.getAttr_removeAttr_ne _ _ _ (by decide)]
  rw [Elem.getAttr_setAttr_ne _ _ _ _ (by decide), Elem.getAttr_setAttr_ne _ _ _ _ (by decide)]

theorem viewBoxNums_of_len_ne (v : String) (h : (splitWs v).length ≠ 4) :
    viewBoxNums v = ⟨some 0, some 0, some 24, some 24⟩ := by
  unfold viewBoxNums
  match hl : (splitWs v).map jsNumber with
  | [] => rfl
  | [_] => rfl
  | [_, _] => rfl
  | [_, _, _] => rfl
  | [_, _, _, _] =>
    exfalso
    have := congrArg List.length hl
    simp at this
    exact h this
  | _ :: _ :: _ :: _ :: _ :: _ => rfl

theorem viewBoxNums_default : viewBoxNums "0 0 24 24" = ⟨some 0, some 0, some 24, some 24⟩ := by
  decide

/-- The string produced by the view-box read parses to the default box
whenever the attribute is absent, empty, or does not split into four
tokens. -/
theorem viewBoxRead_default (e : Elem)
    (hvb : e.getAttr "viewBox" = none ∨
      ∀ v, e.getAttr "viewBox" = some v → (splitWs v).length ≠ 4) :
    viewBoxNums (viewBoxRead e).1 = ⟨some 0, some 0, some 24, some 24⟩ := by
  unfold viewBoxRead
  rcases hv : e.getAttr "viewBox" with _ | v
  · exact viewBoxNums_default
  · rcases hvb with hnone | hlen
    · rw [hv] at hnone
      exact absurd hnone (by simp)
    · by_cases he : v = ""
      · simp only [he]
        exact viewBoxNums_default
      · have hb : (v == "") = false := by simp [he]
        simp only [hb, Bool.false_eq_true, if_false]
        exact viewBoxNums_of_len_ne v (hlen v hv)

/-- The box computed by the root stage when the view box is absent or does
not split into four tokens: the default box, expanded. -/
theorem rootStage_default_box (svg : Elem) (size padding : Q)
    (hvb : svg.getAttr "viewBox" = none ∨
      ∀ v, svg.getAttr "viewBox" = some v → (splitWs v).length ≠ 4) :
    (rootStage svg size padding).2 = expandBox ⟨some 0, some 0, some 24, some 24⟩ padding := by
  unfold rootStage
  have h := viewBoxRead_default (rootPrep svg size) (by rw [rootPrep_getAttr_viewBox]; exact hvb)
  simp only [h]

/-- C10: for every input whose `svg` root has no `viewBox` attribute, or
whose `viewBox` value does not split into exactly four whitespace-separated
tokens, the assembler substitutes the default view box `(0, 0, 24, 24)`:
the expanded box it computes is the expansion of the default box, and the
whole assembly (padding, corner-radius, background and guard geometry, all
functions of that box inside `buildChildren`) proceeds from it instead of
failing. -/
theorem c10_default_viewBox
    (icon svg : Elem) (iconColor bgColor : String) (size padding cornerRadius : Q)
    (packId : Option String)
    (hx : extractSvg icon = some svg)
    (hvb : svg.getAttr "viewBox" = none ∨
      ∀ v, svg.getAttr "viewBox" = some v → (splitWs v).length ≠ 4) :
    (rootStage svg size padding).2 = expandBox ⟨some 0, some 0, some 24, some 24⟩ padding ∧
    assembleE (some icon) iconColor bgColor size padding cornerRadius packId =
      (buildChildren (expandBox ⟨some 0, some 0, some 24, some 24⟩ padding) iconColor bgColor
        cornerRadius (paddingOn padding) packId (rootStage svg size padding).1.children).map
        fun fin => some (Elem.mk (rootStage svg size padding).1.tag
          (rootStage svg size padding).1.attrs fin) := by
  have hbox := rootStage_default_box svg size padding hvb
  refine ⟨hbox, ?_⟩
  simp only [assembleE, hx, assembleCore, hbox]
  cases buildChildren (expandBox ⟨some 0, some 0, some 24, some 24⟩ padding) iconColor bgColor
      cornerRadius (paddingOn padding) packId (rootStage svg size padding).1.children with
  | error u => rfl
  | ok fin => rfl

/-- Witness for C10 at a concrete icon with no `viewBox` attribute. -/
theorem c10_default_viewBox_witness :
    (extractSvg wIcon10 = some wIcon10 ∧ wIcon10.getAttr "viewBox" = none) ∧
    (rootStage wIcon10 64 ⟨1, 10⟩).2 = expandBox ⟨some 0, some 0, some 24, some 24⟩ ⟨1, 10⟩ :=
  ⟨⟨by decide, by decide⟩,
    (c10_default_viewBox wIcon10 wIcon10 "#ff0000" "transparent" 64 ⟨1, 10⟩ 0 none
      (by decide) (Or.inl (by decide))).1⟩

theorem Elem.tag_setAttr (e : Elem) (n v : String) : (e.setAttr n v).tag = e.tag := by
  cases e; rfl

theorem Elem.tag_removeAttr (e : Elem) (n : String) : (e.removeAttr n).tag = e.tag := by
  cases e; rfl

theorem Elem.children_setAttr (e : Elem) (n v : String) :
    (e.setAttr n v).children = e.children := by
  cases e; rfl

theorem Elem.children_removeAttr (e : Elem) (n : String) :
    (e.removeAttr n).children = e.children := by
  cases e; rfl

theorem Elem.eta (e : Elem) : Elem.mk e.tag e.attrs e.children = e := by
  cases e; rfl

theorem styleStep_tag (e : Elem) : (styleStep e).tag = e.tag := by
  unfold styleStep
  cases e.getAttr "style" with
  | none => rfl
  | some s =>
    by_cases he : s == ""
    · simp [he]
    · simp only [he, Bool.false_eq_true, if_neg, not_false_eq_true]
      by_cases hc : cleanStyle s == ""
      · simp [hc, Elem.tag_removeAttr]
      · simp [hc, Elem.tag_setAttr]

theorem styleStep_children (e : Elem) : (styleStep e).children = e.children := by
  unfold styleStep
  cases e.getAttr "style" with
  | none => rfl
  | some s =>
    by_cases he : s == ""
    · simp [he]
    · simp only [he, Bool.false_eq_true, if_neg, not_false_eq_true]
      by_cases hc : cleanStyle s == ""
      · simp [hc, Elem.children_removeAttr]
      · simp [hc, Elem.children_setAttr]

theorem gStrip_tag (e : Elem) (isG : Bool) : (gStrip e isG).tag = e.tag := by
  unfold gStrip
  split <;> simp [Elem.tag_removeAttr]

theorem gStrip_children (e : Elem) (isG : Bool) : (gStrip e isG).children = e.children := by
  unfold gStrip
  split <;> simp [Elem.children_removeAttr]

theorem gStrip_getAttr_other (e : Elem) (isG : Bool) (n : String)
    (h1 : "stroke" ≠ n) (h2 : "fill" ≠ n) (h3 : "stroke-width" ≠ n) :
    (gStrip e isG).getAttr n = e.getAttr n := by
  unfold gStrip
  split
  · rw [Elem.getAttr_removeAttr_ne _ _ _ h3, Elem.getAttr_removeAttr_ne _ _ _ h2,
      Elem.getAttr_removeAttr_ne _ _ _ h1]
  · rfl

theorem packStep_tag (e : Elem) (c : String) (pid : Option String) (sh : Bool) :
    (packStep e c pid sh).tag = e.tag := by
  unfold packStep
  dsimp only
  split
  · split <;> simp [Elem.tag_setAttr]
  · split <;> simp [Elem.tag_setAttr]
  · rcases hs : e.getAttr "stroke" with _ | v <;> rcases hf : e.getAttr "fill" with _ | w <;>
      simp only [hs, hf] <;>
      repeat' first
      | rfl
      | split
      | rw [Elem.tag_setAttr]
      | rw [Elem.getAttr_setAttr_ne _ _ _ _ (by decide), hf]

theorem packStep_children (e : Elem) (c : String) (pid : Option String) (sh : Bool) :
    (packStep e c pid sh).children = e.children := by
  unfold packStep
  dsimp only
  split
  · split <;> simp [Elem.children_setAttr]
  · split <;> simp [Elem.children_setAttr]
  · rcases hs : e.getAttr "stroke" with _ | v <;> rcases hf : e.getAttr "fill" with _ | w <;>
      simp only [hs, hf] <;>
      repeat' first
      | rfl
      | split
      | rw [Elem.children_setAttr]

theorem packStep_getAttr_other (e : Elem) (c : String) (pid : Option String) (sh : Bool)
    (n : String) (h1 : "stroke" ≠ n) (h2 : "fill" ≠ n) (h3 : "stroke-width" ≠ n) :
    (packStep e c pid sh).getAttr n = e.getAttr n := by
  unfold packStep
  dsimp only
  split
  · split
    · rw [Elem.getAttr_setAttr_ne _ _ _ _ h3, Elem.getAttr_setAttr_ne _ _ _ _ h2,
        Elem.getAttr_setAttr_ne _ _ _ _ h1]
    · rfl
  · split
    · rw [Elem.getAttr_setAttr_ne _ _ _ _ h1, Elem.getAttr_setAttr_ne _ _ _ _ h2]
    · rw [Elem.getAttr_setAttr_ne _ _ _ _ h2]
  · rcases hs : e.getAttr "stroke" with _ | v <;> rcases hf : e.getAttr "fill" with _ | w <;>
      simp only [hs, hf] <;>
      repeat' first
      | rfl
      | split
      | rw [Elem.getAttr_setAttr_ne _ _ _ _ h2]
      | rw [Elem.getAttr_setAttr_ne _ _ _ _ h1]

theorem apsc_tag (e : Elem) (c : String) (pid : Option String) :
    (applyPackSpecificColor e c pid).tag = e.tag := by
  unfold applyPackSpecificColor
  dsimp only
  split
  · rfl
  · rw [styleStep_tag, packStep_tag, gStrip_tag]

theorem apsc_children (e : Elem) (c : String) (pid : Option String) :
    (applyPackSpecificColor e c pid).children = e.children := by
  unfold applyPackSpecificColor
  dsimp only
  split
  · rfl
  · rw [styleStep_children, packStep_children, gStrip_children]

theorem apsc_getAttr_other (e : Elem) (c : String) (pid : Option String) (n : String)
    (h1 : "stroke" ≠ n) (h2 : "fill" ≠ n) (h3 : "stroke-width" ≠ n) (h4 : n ≠ "style") :
    (applyPackSpecificColor e c pid).getAttr n = e.getAttr n := by
  unfold applyPackSpecificColor
  dsimp only
  split
  · rfl
  · rw [styleStep_getAttr_ne _ _ h4, packStep_getAttr_other _ _ _ _ _ h1 h2 h3,
      gStrip_getAttr_other _ _ _ h1 h2 h3]

theorem assembleE_ok_elim
    (icon svg doc : Elem) (iconColor bgColor : String) (size padding cornerRadius : Q)
    (packId : Option String)
    (hx : extractSvg icon = some svg)
    (hdoc : assembleE (some icon) iconColor bgColor size padding cornerRadius packId =
      .ok (some doc)) :
    ∃ fin, buildChildren (rootStage svg size padding).2 iconColor bgColor cornerRadius
        (paddingOn padding) packId (rootStage svg size padding).1.children = .ok fin ∧
      doc = Elem.mk (rootStage svg size padding).1.tag (rootStage svg size padding).1.attrs
        fin := by
  simp only [assembleE, hx] at hdoc
  cases hcore : assembleCore svg iconColor bgColor size padding cornerRadius packId with
  | error u => rw [hcore] at hdoc; exact absurd hdoc (by simp [Except.map])
  | ok d =>
    rw [hcore] at hdoc
    simp only [Except.map] at hdoc
    have hd : d = doc := by cases hdoc; rfl
    subst hd
    simp only [assembleCore] at hcore
    cases hbc : buildChildren (rootStage svg size padding).2 iconColor bgColor cornerRadius
        (paddingOn padding) packId (rootStage svg size padding).1.children with
    | error u => rw [hbc] at hcore; exact absurd hcore (by simp [Except.map])
    | ok fin =>
      rw [hbc] at hcore
      simp only [Except.map] at hcore
      exact ⟨fin, rfl, by cases hcore; rfl⟩

theorem buildChildren_ok_elim (box : Box) (ic bgc : String) (cr : Q) (padOn : Bool)
    (pid : Option String) (cs : List Elem) (fin : List Elem)
    (h : buildChildren box ic bgc cr padOn pid cs = .ok fin) :
    ∃ ms2 ms3,
      (if bgc != "transparent" then
        insertBg (false, bgRectFor box (radiusOf box cr) bgc) (msInit box ic cr pid cs)
      else .ok (msInit box ic cr pid cs)) = .ok ms2 ∧
      (if padOn then insertGuard (false, guardRectFor box (radiusOf box cr)) ms2
      else .ok ms2) = .ok ms3 ∧
      fin = finStep cr ms3 := by
  simp only [buildChildren] at h
  cases hbg : (if bgc != "transparent" then
      insertBg (false, bgRectFor box (radiusOf box cr) bgc) (msInit box ic cr pid cs)
    else .ok (msInit box ic cr pid cs)) with
  | error u => rw [hbg] at h; exact absurd h (by simp)
  | ok ms2 =>
    rw [hbg] at h
    dsimp only at h
    cases hgr : (if padOn then insertGuard (false, guardRectFor box (radiusOf box cr)) ms2
      else .ok ms2) with
    | error u => rw [hgr] at h; cases h
    | ok ms3 =>
      rw [hgr] at h
      dsimp only at h
      exact ⟨ms2, ms3, rfl, hgr, by cases h; rfl⟩

theorem qloc_cons_true (p : Elem → Bool) (d : Elem) (rest : List Elem) (hd : p d = true) :
    qloc p (d :: rest) = .root 0 (!rest.isEmpty) := by
  simp [qloc, hd]

theorem insertBg_head_clip (bg : MChild) (b : Box) (r : JsN) (buf : Q)
    (rest : List MChild) (ms2 : List MChild)
    (h : insertBg bg ((false, clipDefs b r buf) :: rest) = .ok ms2) :
    ∃ rest2, ms2 = (false, clipDefs b r buf) :: rest2 := by
  unfold insertBg at h
  rw [List.map_cons, qloc_cons_true _ _ _ (by rfl)] at h
  cases rest with
  | nil =>
    simp only [List.map_nil, List.isEmpty_nil, Bool.not_true, insertSecond] at h
    exact ⟨[bg], by cases h; rfl⟩
  | cons m rest =>
    simp only [List.map_cons, List.isEmpty_cons, Bool.not_false] at h
    refine ⟨bg :: m :: rest, ?_⟩
    have : List.insertIdx 1 bg ((false, clipDefs b r buf) :: m :: rest) =
        (false, clipDefs b r buf) :: bg :: m :: rest := by
      rw [List.insertIdx_succ_cons, List.insertIdx_zero]
    rw [this] at h
    cases h; rfl

theorem locElem_clipDefs_isBgQ (b : Box) (r : JsN) (buf : Q) :
    locElem isBgQ (clipDefs b r buf) = none := rfl

theorem insertGuard_head_clip (gr : MChild) (b : Box) (r : JsN) (buf : Q)
    (rest : List MChild) (ms3 : List MChild)
    (h : insertGuard gr ((false, clipDefs b r buf) :: rest) = .ok ms3) :
    ∃ rest2, ms3 = (false, clipDefs b r buf) :: rest2 := by
  unfold insertGuard at h
  rw [List.map_cons] at h
  have hclip : isBgQ (clipDefs b r buf) = false := rfl
  have hq : qloc isBgQ (clipDefs b r buf :: rest.map Prod.snd) =
      match qloc isBgQ (rest.map Prod.snd) with
      | .missing => .missing
      | .root i bb => .root (i + 1) bb
      | .nested bb => .nested bb := by
    simp [qloc, hclip, locElem_clipDefs_isBgQ]
  rw [hq] at h
  have hqd : qloc isDefsQ (clipDefs b r buf :: rest.map Prod.snd) =
      .root 0 (!(rest.map Prod.snd).isEmpty) := qloc_cons_true _ _ _ rfl
  have hdefsBranch : ∀ ms, (match qloc isDefsQ (clipDefs b r buf :: rest.map Prod.snd) with
      | QLoc.root i true => Except.ok (List.insertIdx (i + 1) gr
          ((false, clipDefs b r buf) :: rest))
      | QLoc.root _ false => Except.ok (insertSecond gr ((false, clipDefs b r buf) :: rest))
      | QLoc.nested true => Except.error ()
      | QLoc.nested false => Except.ok (insertSecond gr ((false, clipDefs b r buf) :: rest))
      | QLoc.missing => Except.ok (gr :: (false, clipDefs b r buf) :: rest)) = .ok ms →
      ∃ rest2, ms = (false, clipDefs b r buf) :: rest2 := by
    intro ms hm
    rw [hqd] at hm
    cases rest with
    | nil =>
      simp only [List.map_nil, List.isEmpty_nil, Bool.not_true, insertSecond] at hm
      exact ⟨[gr], by cases hm; rfl⟩
    | cons m rest =>
      simp only [List.map_cons, List.isEmpty_cons, Bool.not_false] at hm
      refine ⟨gr :: m :: rest, ?_⟩
      have : List.insertIdx 1 gr ((false, clipDefs b r buf) :: m :: rest) =
          (false, clipDefs b r buf) :: gr :: m :: rest := by
        rw [List.insertIdx_succ_cons, List.insertIdx_zero]
      rw [this] at hm
      cases hm; rfl
  cases hsub : qloc isBgQ (rest.map Prod.snd) with
  | missing =>
    rw [hsub] at h
    exact hdefsBranch ms3 h
  | root i bb =>
    rw [hsub] at h
    cases bb with
    | true =>
      refine ⟨List.insertIdx (i + 1) gr rest, ?_⟩
      have hred : ms3 = List.insertIdx (i + 1 + 1) gr ((false, clipDefs b r buf) :: rest) := by
        cases h; rfl
      rw [hred]
      exact List.insertIdx_succ_cons _ _ _ _
    | false => exact hdefsBranch ms3 h
  | nested bb =>
    rw [hsub] at h
    cases bb with
    | true => exact absurd h (by simp)
    | false => exact hdefsBranch ms3 h

/-- C5: for every assembly with `cornerRadiusPercent > 0`, the document's
first child is the created `defs` whose `clipPath` rect has
`rx = ry = min(expandedW, expandedH) * cornerRadiusPercent / 100` (for 50
percent, half the expanded box's shorter dimension, as the witness checks
concretely), and the clip rect is enlarged outward by one view-box unit on
each side exactly when the pack is the stroke-based one (`feather`), with
zero buffer for every other pack. -/
theorem c5_clip_geometry
    (icon svg doc : Elem) (iconColor bgColor : String) (size padding cornerRadius : Q)
    (packId : Option String)
    (hx : extractSvg icon = some svg)
    (hcr : Q.lt 0 cornerRadius = true)
    (hdoc : assembleE (some icon) iconColor bgColor size padding cornerRadius packId =
      .ok (some doc)) :
    doc.children.head? = some (clipDefs (rootStage svg size padding).2
      (jnDivNat (jnMul (jnMin (rootStage svg size padding).2.w
        (rootStage svg size padding).2.h) (some cornerRadius)) 100)
      (if packId == some "feather" then 1 else 0)) := by
  obtain ⟨fin, hbc, hdocEq⟩ := assembleE_ok_elim icon svg doc iconColor bgColor size padding
    cornerRadius packId hx hdoc
  obtain ⟨ms2, ms3, hbg, hgr, hfin⟩ := buildChildren_ok_elim _ _ _ _ _ _ _ _ hbc
  have hms1 : msInit (rootStage svg size padding).2 iconColor cornerRadius packId
      (rootStage svg size padding).1.children =
      (false, clipDefs (rootStage svg size padding).2
        (radiusOf (rootStage svg size padding).2 cornerRadius) (bufferFor packId)) ::
        contentOf iconColor packId (rootStage svg size padding).1.children := by
    simp [msInit, hcr]
  have h2 : ∃ r2, ms2 = (false, clipDefs (rootStage svg size padding).2
      (radiusOf (rootStage svg size padding).2 cornerRadius) (bufferFor packId)) :: r2 := by
    by_cases hbgc : (bgColor != "transparent") = true
    · rw [if_pos hbgc, hms1] at hbg
      exact insertBg_head_clip _ _ _ _ _ _ hbg
    · rw [if_neg hbgc, hms1] at hbg
      exact ⟨contentOf iconColor packId (rootStage svg size padding).1.children,
        by cases hbg; rfl⟩
  obtain ⟨r2, hr2⟩ := h2
  have h3 : ∃ r3, ms3 = (false, clipDefs (rootStage svg size padding).2
      (radiusOf (rootStage svg size padding).2 cornerRadius) (bufferFor packId)) :: r3 := by
    by_cases hpad : paddingOn padding = true
    · rw [if_pos hpad, hr2] at hgr
      exact insertGuard_head_clip _ _ _ _ _ _ hgr
    · rw [if_neg hpad, hr2] at hgr
      exact ⟨r2, by cases hgr; rfl⟩
  obtain ⟨r3, hr3⟩ := h3
  rw [hdocEq]
  show fin.head? = _
  rw [hfin, hr3]
  simp [finStep, hcr, radiusOf, bufferFor]

/-- Witness for C5 at the spec's second scenario (`cornerRadiusPercent = 50`,
black background, Feather pack): the clip rect has `rx = ry = "14.4"`
(half of the expanded `28.8`) and the one-unit stroke buffer
(`x = "-3.4"`, `width = "30.8"`). -/
theorem c5_clip_geometry_witness :
    (extractSvg wIcon1 = some wIcon1 ∧ Q.lt 0 50 = true ∧
      assembleE (some wIcon1) "#ff0000" "#000000" 64 ⟨1, 10⟩ 50 (some "feather") =
        .ok (some wDoc5)) ∧
    wDoc5.children.head? = some (clipDefs (rootStage wIcon1 64 ⟨1, 10⟩).2
      (jnDivNat (jnMul (jnMin (rootStage wIcon1 64 ⟨1, 10⟩).2.w
        (rootStage wIcon1 64 ⟨1, 10⟩).2.h) (some 50)) 100)
      (if (some "feather" : Option String) == some "feather" then 1 else 0)) ∧
    clipDefs (rootStage wIcon1 64 ⟨1, 10⟩).2
      (jnDivNat (jnMul (jnMin (rootStage wIcon1 64 ⟨1, 10⟩).2.w
        (rootStage wIcon1 64 ⟨1, 10⟩).2.h) (some 50)) 100)
      (if (some "feather" : Option String) == some "feather" then 1 else 0) =
      Elem.mk "defs" []
        [Elem.mk "clipPath" [("id", "rounded-corner-clip"), ("clipPathUnits", "userSpaceOnUse")]
          [Elem.mk "rect"
            [("x", "-3.4"), ("y", "-3.4"), ("width", "30.8"), ("height", "30.8"),
             ("rx", "14.4"), ("ry", "14.4"), ("stroke", "none"), ("stroke-width", "0")] []]] := by
  refine ⟨⟨by decide, by decide, by rfl⟩, ?_, by decide⟩
  exact c5_clip_geometry wIcon1 wIcon1 wDoc5 "#ff0000" "#000000" 64 ⟨1, 10⟩ 50 (some "feather")
    (by decide) (by decide) (by rfl)

theorem anyElem_mk (p : Elem → Bool) (t : String) (a : List (String × String))
    (c : List Elem) : anyElem p (.mk t a c) = (p (.mk t a c) || anyList p c) := rfl

theorem anyList_cons (p : Elem → Bool) (e : Elem) (r : List Elem) :
    anyList p (e :: r) = (anyElem p e || anyList p r) := rfl

theorem anyList_eq_any (p : Elem → Bool) (l : List Elem) :
    anyList p l = l.any (anyElem p) := by
  induction l with
  | nil => rfl
  | cons e r ih => rw [anyList_cons, ih]; rfl

theorem anyList_false_mem (p : Elem → Bool) (l : List Elem) (x : Elem)
    (h : anyList p l = false) (hx : x ∈ l) : anyElem p x = false := by
  rw [anyList_eq_any] at h
  exact Bool.eq_false_iff.mpr (List.any_eq_false.mp h x hx)

mutual
theorem anyElem_imp (p q : Elem → Bool) (hpq : ∀ x, q x = true → p x = true) :
    ∀ e, anyElem q e = true → anyElem p e = true
  | .mk t a c => by
    rw [anyElem_mk, anyElem_mk]
    intro h
    rcases Bool.or_eq_true_iff.mp h with h1 | h2
    · exact Bool.or_eq_true_iff.mpr (Or.inl (hpq _ h1))
    · exact Bool.or_eq_true_iff.mpr (Or.inr (anyList_imp p q hpq c h2))
theorem anyList_imp (p q : Elem → Bool) (hpq : ∀ x, q x = true → p x = true) :
    ∀ l, anyList q l = true → anyList p l = true
  | [] => by intro h; exact absurd h (by simp [anyList])
  | e :: r => by
    rw [anyList_cons, anyList_cons]
    intro h
    rcases Bool.or_eq_true_iff.mp h with h1 | h2
    · exact Bool.or_eq_true_iff.mpr (Or.inl (anyElem_imp p q hpq e h1))
    · exact Bool.or_eq_true_iff.mpr (Or.inr (anyList_imp p q hpq r h2))
end

theorem anyElem_false_of_imp (p q : Elem → Bool) (hpq : ∀ x, q x = true → p x = true)
    (e : Elem) (h : anyElem p e = false) : anyElem q e = false := by
  cases hq : anyElem q e with
  | false => rfl
  | true => rw [anyElem_imp p q hpq e hq] at h; cases h

mutual
/-- Colourization does not change the truth of a predicate that ignores
children and is invariant under `applyPackSpecificColor`. -/
theorem anyElem_colorize (cl : String) (pid : Option String) (p : Elem → Bool)
    (hpc : ∀ t a c1 c2, p (.mk t a c1) = p (.mk t a c2))
    (hpa : ∀ x, p (applyPackSpecificColor x cl pid) = p x) :
    ∀ e, anyElem p (applyColorRec cl pid e) = anyElem p e
  | .mk t a c => by
    show anyElem p (.mk (applyPackSpecificColor (.mk t a c) cl pid).tag
      (applyPackSpecificColor (.mk t a c) cl pid).attrs (applyColorList cl pid c)) = _
    rw [anyElem_mk, anyElem_mk]
    rw [hpc _ _ (applyColorList cl pid c) (applyPackSpecificColor (.mk t a c) cl pid).children]
    rw [Elem.eta, hpa]
    rw [anyList_colorize cl pid p hpc hpa c]
theorem anyList_colorize (cl : String) (pid : Option String) (p : Elem → Bool)
    (hpc : ∀ t a c1 c2, p (.mk t a c1) = p (.mk t a c2))
    (hpa : ∀ x, p (applyPackSpecificColor x cl pid) = p x) :
    ∀ l, anyList p (applyColorList cl pid l) = anyList p l
  | [] => rfl
  | e :: r => by
    show anyList p (applyColorRec cl pid e :: applyColorList cl pid r) = _
    rw [anyList_cons, anyList_cons, anyElem_colorize cl pid p hpc hpa e,
      anyList_colorize cl pid p hpc hpa r]
end

theorem mem_insertIdx_sub (x a : MChild) (n : Nat) (l : List MChild)
    (h : a ∈ List.insertIdx n x l) : a ∈ l ∨ a = x := by
  induction n generalizing l with
  | zero =>
    rw [List.insertIdx_zero] at h
    rcases List.mem_cons.mp h with h1 | h2
    · exact Or.inr h1
    · exact Or.inl h2
  | succ n ih =>
    cases l with
    | nil =>
      rw [List.insertIdx_succ_nil] at h
      exact absurd h (by simp)
    | cons b t =>
      rw [List.insertIdx_succ_cons] at h
      rcases List.mem_cons.mp h with h1 | h2
      · exact Or.inl (h1 ▸ List.mem_cons_self b t)
      · rcases ih t h2 with h3 | h4
        · exact Or.inl (List.mem_cons_of_mem b h3)
        · exact Or.inr h4

theorem insertSecond_mem (x a : MChild) (l : List MChild)
    (h : a ∈ insertSecond x l) : a ∈ l ∨ a = x := by
  cases l with
  | nil =>
    simp only [insertSecond] at h
    rcases List.mem_singleton.mp h with h1
    exact Or.inr h1
  | cons b t =>
    simp only [insertSecond] at h
    rcases List.mem_cons.mp h with h1 | h2
    · exact Or.inl (h1 ▸ List.mem_cons_self b t)
    · rcases List.mem_cons.mp h2 with h3 | h4
      · exact Or.inr h3
      · exact Or.inl (List.mem_cons_of_mem b h4)

theorem insertBg_mem (bg : MChild) (ms ms2 : List MChild)
    (h : insertBg bg ms = .ok ms2) (a : MChild) (ha : a ∈ ms2) : a ∈ ms ∨ a = bg := by
  unfold insertBg at h
  cases hq : qloc isDefsQ (ms.map Prod.snd) with
  | missing =>
    rw [hq] at h
    cases h
    rcases List.mem_cons.mp ha with h1 | h2
    · exact Or.inr h1
    · exact Or.inl h2
  | root i bb =>
    rw [hq] at h
    cases bb with
    | true => cases h; exact mem_insertIdx_sub bg a (i + 1) ms ha
    | false => cases h; exact insertSecond_mem bg a ms ha
  | nested bb =>
    rw [hq] at h
    cases bb with
    | true => cases h
    | false => cases h; exact insertSecond_mem bg a ms ha

theorem insertGuard_mem (gr : MChild) (ms ms2 : List MChild)
    (h : insertGuard gr ms = .ok ms2) (a : MChild) (ha : a ∈ ms2) : a ∈ ms ∨ a = gr := by
  unfold insertGuard at h
  have hdefs : (match qloc isDefsQ (ms.map Prod.snd) with
      | QLoc.root i true => Except.ok (List.insertIdx (i + 1) gr ms)
      | QLoc.root _ false => Except.ok (insertSecond gr ms)
      | QLoc.nested true => Except.error ()
      | QLoc.nested false => Except.ok (insertSecond gr ms)
      | QLoc.missing => Except.ok (gr :: ms)) = .ok ms2 → a ∈ ms ∨ a = gr := by
    intro hm
    cases hq : qloc isDefsQ (ms.map Prod.snd) with
    | missing =>
      rw [hq] at hm
      cases hm
      rcases List.mem_cons.mp ha with h1 | h2
      · exact Or.inr h1
      · exact Or.inl h2
    | root i bb =>
      rw [hq] at hm
      cases bb with
      | true => cases hm; exact mem_insertIdx_sub gr a (i + 1) ms ha
      | false => cases hm; exact insertSecond_mem gr a ms ha
    | nested bb =>
      rw [hq] at hm
      cases bb with
      | true => cases hm
      | false => cases hm; exact insertSecond_mem gr a ms ha
  cases hq : qloc isBgQ (ms.map Prod.snd) with
  | missing => rw [hq] at h; exact hdefs h
  | root i bb =>
    rw [hq] at h
    cases bb with
    | true => cases h; exact mem_insertIdx_sub gr a (i + 1) ms ha
    | false => exact hdefs h
  | nested bb =>
    rw [hq] at h
    cases bb with
    | true => cases h
    | false => exact hdefs h

theorem extractSvg_tag (icon s : Elem) (h : extractSvg icon = some s) : s.tag = "svg" := by
  unfold extractSvg at h
  cases hq : querySel (fun e => e.tag == "svg") icon with
  | some x =>
    simp only [hq] at h
    by_cases ht : (x.tag != "svg") = true
    · simp [ht] at h
    · simp only [ht, Bool.false_eq_true, if_false] at h
      cases h
      simpa using ht
  | none =>
    simp only [hq] at h
    by_cases ht : (icon.tag == "svg") = true
    · simp only [ht, if_true] at h
      have hi : icon.tag = "svg" := by simpa using ht
      simp only [hi, bne_self_eq_false, Bool.false_eq_true, if_false] at h
      cases h
      exact hi
    · simp [ht] at h

theorem viewBoxRead_some (e : Elem) (v : String) (hv : e.getAttr "viewBox" = some v)
    (hvne : v ≠ "") : viewBoxRead e = (v, e) := by
  unfold viewBoxRead
  rw [hv]
  have hb : (v == "") = false := by simp [hvne]
  simp [hb]

theorem viewBoxRead_tag (e : Elem) : (viewBoxRead e).2.tag = e.tag := by
  unfold viewBoxRead
  cases e.getAttr "viewBox" with
  | none => simp [Elem.tag_setAttr]
  | some v =>
    by_cases hb : (v == "") = true
    · simp [hb, Elem.tag_setAttr]
    · simp [hb]

theorem viewBoxRead_children (e : Elem) : (viewBoxRead e).2.children = e.children := by
  unfold viewBoxRead
  cases e.getAttr "viewBox" with
  | none => simp [Elem.children_setAttr]
  | some v =>
    by_cases hb : (v == "") = true
    · simp [hb, Elem.children_setAttr]
    · simp [hb]

theorem rootPrep_tag (svg : Elem) (size : Q) : (rootPrep svg size).tag = svg.tag := by
  unfold rootPrep
  rw [styleStep_tag, Elem.tag_removeAttr, Elem.tag_removeAttr, Elem.tag_removeAttr,
    Elem.tag_removeAttr, Elem.tag_setAttr, Elem.tag_setAttr]

theorem rootPrep_children (svg : Elem) (size : Q) :
    (rootPrep svg size).children = svg.children := by
  unfold rootPrep
  rw [styleStep_children, Elem.children_removeAttr, Elem.children_removeAttr,
    Elem.children_removeAttr, Elem.children_removeAttr, Elem.children_setAttr,
    Elem.children_setAttr]

theorem rootStage_tag (svg : Elem) (size padding : Q) :
    (rootStage svg size padding).1.tag = svg.tag := by
  unfold rootStage
  dsimp only
  split
  · rw [Elem.tag_setAttr, viewBoxRead_tag, rootPrep_tag]
  · rw [viewBoxRead_tag, rootPrep_tag]

theorem rootStage_children (svg : Elem) (size padding : Q) :
    (rootStage svg size padding).1.children = svg.children := by
  unfold rootStage
  dsimp only
  split
  · rw [Elem.children_setAttr, viewBoxRead_children, rootPrep_children]
  · rw [viewBoxRead_children, rootPrep_children]

theorem rootStage_viewBox_off (svg : Elem) (size padding : Q) (v : String)
    (hoff : paddingOn padding = false)
    (hv : svg.getAttr "viewBox" = some v) (hvne : v ≠ "") :
    (rootStage svg size padding).1.getAttr "viewBox" = some v := by
  unfold rootStage
  dsimp only
  rw [hoff]
  simp only [Bool.false_eq_true, if_false]
  rw [viewBoxRead_some _ _ (by rw [rootPrep_getAttr_viewBox]; exact hv) hvne]
  rw [rootPrep_getAttr_viewBox]
  exact hv

theorem anyElem_guard_clip (b : Box) (r : JsN) (buf : Q) :
    anyElem isGuardB (clipDefs b r buf) = false := rfl

theorem anyElem_guard_bgRect (b : Box) (r : JsN) (c : String) :
    anyElem isGuardB (bgRectFor b r c) = false := by
  simp [anyElem, anyList, isGuardB, bgRectFor, Elem.getAttr, Elem.attrs, Elem.tag, getA]

theorem anyList_finStep_false (cr : Q) (ms : List MChild)
    (h : ∀ m ∈ ms, anyElem isGuardB m.2 = false) :
    anyList isGuardB (finStep cr ms) = false := by
  have hany : ∀ (q : MChild → Bool), ((ms.filter q).map Prod.snd).any (anyElem isGuardB) =
      false := by
    intro q
    refine Bool.eq_false_iff.mpr (fun hc => ?_)
    rcases List.any_eq_true.mp hc with ⟨x, hx, hpx⟩
    rcases List.mem_map.mp hx with ⟨m, hm, hme⟩
    rw [← hme, h m (List.mem_of_mem_filter hm)] at hpx
    cases hpx
  unfold finStep
  split
  · rw [anyList_eq_any, List.any_append]
    refine Bool.or_eq_false_iff.mpr ⟨hany _, ?_⟩
    simp only [List.any_cons, List.any_nil, Bool.or_false]
    rw [anyElem_mk]
    refine Bool.or_eq_false_iff.mpr ⟨rfl, ?_⟩
    rw [anyList_eq_any]
    exact hany _
  · rw [anyList_eq_any]
    refine Bool.eq_false_iff.mpr (fun hc => ?_)
    rcases List.any_eq_true.mp hc with ⟨x, hx, hpx⟩
    rcases List.mem_map.mp hx with ⟨m, hm, hme⟩
    rw [← hme, h m hm] at hpx
    cases hpx

/-- C6: for every icon (whose root carries a real `viewBox` attribute and
whose content contains no rectangle already bearing `opacity="0.001"`),
assembling with `paddingFraction = 0` leaves the document's `viewBox`
equal to the icon's original `viewBox` string exactly, and no guard
rectangle (white `rect` with opacity `0.001`) occurs anywhere in the
assembled document. -/
theorem c6_zero_padding
    (icon svg doc : Elem) (iconColor bgColor : String) (size padding cornerRadius : Q)
    (packId : Option String) (v : String)
    (hx : extractSvg icon = some svg)
    (hv : svg.getAttr "viewBox" = some v) (hvne : v ≠ "")
    (hpz : padding.num = 0)
    (hng : anyList (fun e => e.tag == "rect" && e.getAttr "opacity" == some "0.001")
      svg.children = false)
    (hdoc : assembleE (some icon) iconColor bgColor size padding cornerRadius packId =
      .ok (some doc)) :
    doc.getAttr "viewBox" = some v ∧ anyElem isGuardB doc = false := by
  have hoff : paddingOn padding = false := by
    unfold paddingOn Q.lt
    have h0den : (0 : Q).den = 1 := rfl
    have h0num : (0 : Q).num = 0 := rfl
    rw [h0den, h0num, hpz]
    simp
  obtain ⟨fin, hbc, hdocEq⟩ := assembleE_ok_elim icon svg doc iconColor bgColor size padding
    cornerRadius packId hx hdoc
  obtain ⟨ms2, ms3, hbg, hgr, hfin⟩ := buildChildren_ok_elim _ _ _ _ _ _ _ _ hbc
  rw [hoff] at hgr
  simp only [Bool.false_eq_true, if_false] at hgr
  have hms23 : ms2 = ms3 := by cases hgr; rfl
  constructor
  · rw [hdocEq, Elem.getAttr_mk]
    exact rootStage_viewBox_off svg size padding v hoff hv hvne
  · rw [hdocEq, anyElem_mk]
    refine Bool.or_eq_false_iff.mpr ⟨?_, ?_⟩
    · have htag : (rootStage svg size padding).1.tag = svg.tag := rootStage_tag svg size padding
      have hsvgtag : svg.tag = "svg" := extractSvg_tag icon svg hx
      unfold isGuardB
      rw [show (Elem.mk (rootStage svg size padding).1.tag
        (rootStage svg size padding).1.attrs fin).tag =
        (rootStage svg size padding).1.tag from rfl, htag, hsvgtag]
      rfl
    · have hPimp : ∀ x : Elem, isGuardB x = true →
          (x.tag == "rect" && x.getAttr "opacity" == some "0.001") = true := by
        intro x hxg
        unfold isGuardB at hxg
        rcases Bool.and_eq_true_iff.mp hxg with ⟨h1, h2⟩
        rcases Bool.and_eq_true_iff.mp h1 with ⟨h3, _⟩
        exact Bool.and_eq_true_iff.mpr ⟨h3, h2⟩
      have hcontent : ∀ m ∈ contentOf iconColor packId (rootStage svg size padding).1.children,
          anyElem isGuardB m.2 = false := by
        intro m hm
        unfold contentOf at hm
        rcases List.mem_map.mp hm with ⟨ch, hch, hmEq⟩
        rw [rootStage_children] at hch
        have hPch : anyElem (fun e => e.tag == "rect" && e.getAttr "opacity" == some "0.001")
            ch = false := anyList_false_mem _ _ _ hng hch
        by_cases hd : (toLowerStr ch.tag == "defs") = true
        · rw [if_pos hd] at hmEq
          rw [← hmEq]
          exact anyElem_false_of_imp _ isGuardB hPimp ch hPch
        · rw [if_neg hd] at hmEq
          rw [← hmEq]
          have hcol : anyElem (fun e => e.tag == "rect" && e.getAttr "opacity" == some "0.001")
              (applyColorRec iconColor packId ch) = false := by
            rw [anyElem_colorize iconColor packId
              (fun e => e.tag == "rect" && e.getAttr "opacity" == some "0.001")
              (fun t a c1 c2 => rfl)
              (fun x => by
                show ((applyPackSpecificColor x iconColor packId).tag == "rect" &&
                  (applyPackSpecificColor x iconColor packId).getAttr "opacity" ==
                    some "0.001") = (x.tag == "rect" && x.getAttr "opacity" == some "0.001")
                rw [apsc_tag, apsc_getAttr_other _ _ _ _ (by decide) (by decide) (by decide)
                  (by decide)]) ch]
            exact hPch
          exact anyElem_false_of_imp _ isGuardB hPimp _ hcol
      have hms1 : ∀ m ∈ msInit (rootStage svg size padding).2 iconColor cornerRadius packId
          (rootStage svg size padding).1.children, anyElem isGuardB m.2 = false := by
        intro m hm
        unfold msInit at hm
        by_cases hcr : Q.lt 0 cornerRadius = true
        · rw [if_pos hcr] at hm
          rcases List.mem_cons.mp hm with h1 | h2
          · rw [h1]
            exact anyElem_guard_clip _ _ _
          · exact hcontent m h2
        · rw [if_neg hcr] at hm
          exact hcontent m hm
      have hms2 : ∀ m ∈ ms2, anyElem isGuardB m.2 = false := by
        intro m hm
        by_cases hbgc : (bgColor != "transparent") = true
        · rw [if_pos hbgc] at hbg
          rcases insertBg_mem _ _ _ hbg m hm with h1 | h2
          · exact hms1 m h1
          · rw [h2]
            exact anyElem_guard_bgRect _ _ _
        · rw [if_neg hbgc] at hbg
          have : msInit (rootStage svg size padding).2 iconColor cornerRadius packId
              (rootStage svg size padding).1.children = ms2 := by cases hbg; rfl
          exact hms1 m (this ▸ hm)
      rw [hfin, ← hms23]
      exact anyList_finStep_false _ _ hms2

/-- Witness for C6 at a concrete icon with `viewBox="0 0 24 24"`, padding
zero, corner radius 25 and a background. -/
theorem c6_zero_padding_witness :
    (extractSvg wIcon1 = some wIcon1 ∧ wIcon1.getAttr "viewBox" = some "0 0 24 24" ∧
      (0 : Q).num = 0 ∧
      assembleE (some wIcon1) "#ff0000" "#112233" 64 0 25 (some "feather") =
        .ok (some wDoc6)) ∧
    wDoc6.getAttr "viewBox" = some "0 0 24 24" ∧ anyElem isGuardB wDoc6 = false := by
  refine ⟨⟨by decide, by decide, by decide, by rfl⟩, ?_⟩
  exact c6_zero_padding wIcon1 wIcon1 wDoc6 "#ff0000" "#112233" 64 0 25 (some "feather")
    "0 0 24 24" (by decide) (by decide) (by decide) (by decide) (by decide) (by rfl)

theorem setA_setA_same (l : List (String × String)) (n v w : String) :
    setA (setA l n v) n w = setA l n w := by
  induction l with
  | nil => simp [setA]
  | cons p r ih =>
    rcases p with ⟨pk, pv⟩
    by_cases h : pk = n
    · simp [setA, h]
    · simp [setA, h, ih]

theorem setA_comm_present (l : List (String × String)) (k n v w : String) (h : k ≠ n)
    (hp : getA l n ≠ none) :
    setA (setA l k v) n w = setA (setA l n w) k v := by
  induction l with
  | nil => exact absurd rfl hp
  | cons p r ih =>
    rcases p with ⟨pk, pv⟩
    by_cases hk : pk = k
    · subst hk
      simp [setA, h, Ne.symm h]
    · by_cases hn : pk = n
      · subst hn
        simp [setA, hk, Ne.symm h]
      · have hp2 : getA r n ≠ none := by simpa [getA, hn] using hp
        simp [setA, hk, hn, ih hp2]

theorem remA_setA_comm (l : List (String × String)) (k n v : String) (h : k ≠ n) :
    remA (setA l k v) n = setA (remA l n) k v := by
  induction l with
  | nil =>
    have hb : (k != n) = true := by simp [bne_iff_ne]; exact h
    simp [setA, remA, List.filter, hb]
  | cons p r ih =>
    rcases p with ⟨pk, pv⟩
    by_cases hk : pk = k
    · subst hk
      simp only [setA, beq_self_eq_true, if_true, remA, List.filter_cons]
      have hb : (pk != n) = true := by simp [bne_iff_ne, h]
      simp only [hb, if_true]
      simp [setA]
    · by_cases hn : pk = n
      · subst hn
        have h1 : setA ((pk, pv) :: r) k v = (pk, pv) :: setA r k v := by
          simp [setA, hk]
        have h2 : remA ((pk, pv) :: r) pk = remA r pk := by
          simp [remA, List.filter_cons]
        have h3 : remA ((pk, pv) :: setA r k v) pk = remA (setA r k v) pk := by
          simp [remA, List.filter_cons]
        rw [h1, h3, h2, ih]
      · have h1 : setA ((pk, pv) :: r) k v = (pk, pv) :: setA r k v := by
          simp [setA, hk]
        have h2 : remA ((pk, pv) :: r) n = (pk, pv) :: remA r n := by
          simp [remA, List.filter_cons, bne_iff_ne, hn]
        have h3 : remA ((pk, pv) :: setA r k v) n = (pk, pv) :: remA (setA r k v) n := by
          simp [remA, List.filter_cons, bne_iff_ne, hn]
        have h4 : setA ((pk, pv) :: remA r n) k v = (pk, pv) :: setA (remA r n) k v := by
          simp [setA, hk]
        rw [h1, h3, h2, h4, ih]

theorem Elem.setAttr_setAttr_same (e : Elem) (n v w : String) :
    (e.setAttr n v).setAttr n w = e.setAttr n w := by
  cases e
  simp [Elem.setAttr, Elem.attrs, Elem.tag, Elem.children, setA_setA_same]

theorem Elem.setAttr_comm_present (e : Elem) (k n v w : String) (h : k ≠ n)
    (hp : e.getAttr n ≠ none) :
    (e.setAttr k v).setAttr n w = (e.setAttr n w).setAttr k v := by
  cases e
  simp only [Elem.getAttr, Elem.attrs] at hp
  simp only [Elem.setAttr, Elem.attrs, Elem.tag, Elem.children]
  rw [setA_comm_present _ _ _ _ _ h hp]

theorem Elem.removeAttr_setAttr_comm (e : Elem) (k n v : String) (h : k ≠ n) :
    (e.setAttr k v).removeAttr n = (e.removeAttr n).setAttr k v := by
  cases e
  simp [Elem.setAttr, Elem.removeAttr, Elem.attrs, Elem.tag, Elem.children,
    remA_setA_comm _ _ _ _ h]

theorem styleStep_setAttr_comm (e : Elem) (k v : String) (h : k ≠ "style") :
    styleStep (e.setAttr k v) = (styleStep e).setAttr k v := by
  unfold styleStep
  rw [Elem.getAttr_setAttr_ne _ _ _ _ h]
  cases hs : e.getAttr "style" with
  | none => rfl
  | some s =>
    by_cases he : (s == "") = true
    · simp [he]
    · simp only [he, Bool.false_eq_true, if_false]
      by_cases hc : (cleanStyle s == "") = true
      · simp only [hc, if_pos]
        exact Elem.removeAttr_setAttr_comm e k "style" v h
      · simp only [hc, Bool.false_eq_true, if_false]
        exact Elem.setAttr_comm_present e k "style" v (cleanStyle s) h (by rw [hs]; simp)

theorem shape_not_g (e : Elem) (hsh : shapeTags.contains (toLowerStr e.tag) = true) :
    (toLowerStr e.tag == "g") = false := by
  rcases List.contains_iff_exists_mem_beq.mp hsh with ⟨x, hx, hbeq⟩
  have ht : toLowerStr e.tag = x := by simpa using hbeq
  simp only [shapeTags, List.mem_cons, List.not_mem_nil, or_false] at hx
  rcases hx with h | h | h | h | h | h | h <;> rw [ht, h] <;> rfl

/-- For a shape element, Feather colourization is exactly: set `stroke`,
force `fill="none"`, force `stroke-width="2"`, then clean the style. -/
theorem apsc_feather_shape (e : Elem) (c : String)
    (hsh : shapeTags.contains (toLowerStr e.tag) = true) :
    applyPackSpecificColor e c (some "feather") =
      styleStep (((e.setAttr "stroke" c).setAttr "fill" "none").setAttr "stroke-width" "2") := by
  have hng := shape_not_g e hsh
  unfold applyPackSpecificColor
  dsimp only
  rw [hsh, hng]
  simp only [Bool.not_true, Bool.false_and, Bool.false_eq_true, if_false]
  unfold gStrip packStep
  simp only [Bool.false_eq_true, if_false, hsh, if_true]

/-- C3: for every shape element and any two colours, stroke-based (Feather)
colourization with `c1` and then `c2` leaves `stroke = c2`, `fill = "none"`
and the visible `stroke-width = "2"`, and the result coincides with the
result of colourizing with `c2` twice — the final state carries no trace
of `c1` in any attribute or in the inline style. -/
theorem c3_stroke_colorize_twice (e : Elem) (c1 c2 : String)
    (hsh : shapeTags.contains (toLowerStr e.tag) = true) :
    (applyPackSpecificColor (applyPackSpecificColor e c1 (some "feather")) c2
        (some "feather")).getAttr "stroke" = some c2 ∧
    (applyPackSpecificColor (applyPackSpecificColor e c1 (some "feather")) c2
        (some "feather")).getAttr "fill" = some "none" ∧
    (applyPackSpecificColor (applyPackSpecificColor e c1 (some "feather")) c2
        (some "feather")).getAttr "stroke-width" = some "2" ∧
    applyPackSpecificColor (applyPackSpecificColor e c1 (some "feather")) c2 (some "feather") =
      applyPackSpecificColor (applyPackSpecificColor e c2 (some "feather")) c2
        (some "feather") := by
  have key : ∀ ca : String,
      applyPackSpecificColor (applyPackSpecificColor e ca (some "feather")) c2
        (some "feather") =
      styleStep (styleStep (((e.setAttr "stroke" c2).setAttr "fill" "none").setAttr
        "stroke-width" "2")) := by
    intro ca
    have h1 := apsc_feather_shape e ca hsh
    have hshX : shapeTags.contains
        (toLowerStr (applyPackSpecificColor e ca (some "feather")).tag) = true := by
      rw [apsc_tag]; exact hsh
    have h2 := apsc_feather_shape (applyPackSpecificColor e ca (some "feather")) c2 hshX
    rw [h2, h1]
    rw [← styleStep_setAttr_comm _ _ _ (by decide), ← styleStep_setAttr_comm _ _ _ (by decide),
      ← styleStep_setAttr_comm _ _ _ (by decide)]
    rw [Elem.setAttr_comm_present ((e.setAttr "stroke" ca).setAttr "fill" "none")
      "stroke-width" "stroke" "2" c2 (by decide)
      (by rw [Elem.getAttr_setAttr_ne _ _ _ _ (by decide), Elem.getAttr_setAttr_self]; simp)]
    rw [Elem.setAttr_comm_present (e.setAttr "stroke" ca) "fill" "stroke" "none" c2 (by decide)
      (by rw [Elem.getAttr_setAttr_self]; simp)]
    rw [Elem.setAttr_setAttr_same e "stroke" ca c2]
    rw [Elem.setAttr_comm_present ((e.setAttr "stroke" c2).setAttr "fill" "none")
      "stroke-width" "fill" "2" "none" (by decide)
      (by rw [Elem.getAttr_setAttr_self]; simp)]
    rw [Elem.setAttr_setAttr_same (e.setAttr "stroke" c2) "fill" "none" "none"]
    rw [Elem.setAttr_setAttr_same _ "stroke-width" "2" "2"]
  refine ⟨?_, ?_, ?_, ?_⟩
  · rw [key c1, styleStep_getAttr_ne _ _ (by decide), styleStep_getAttr_ne _ _ (by decide),
      Elem.getAttr_setAttr_ne _ _ _ _ (by decide), Elem.getAttr_setAttr_ne _ _ _ _ (by decide),
      Elem.getAttr_setAttr_self]
  · rw [key c1, styleStep_getAttr_ne _ _ (by decide), styleStep_getAttr_ne _ _ (by decide),
      Elem.getAttr_setAttr_ne _ _ _ _ (by decide), Elem.getAttr_setAttr_self]
  · rw [key c1, styleStep_getAttr_ne _ _ (by decide), styleStep_getAttr_ne _ _ (by decide),
      Elem.getAttr_setAttr_self]
  · rw [key c1, key c2]

/-- Witness for C3 at a concrete shape element carrying a stroke and an
inline style, colourized with blue then red. -/
theorem c3_stroke_colorize_twice_witness :
    shapeTags.contains (toLowerStr (Elem.mk "path"
      [("stroke", "green"), ("style", "stroke: green; border: 1px")] []).tag) = true ∧
    (applyPackSpecificColor (applyPackSpecificColor (Elem.mk "path"
      [("stroke", "green"), ("style", "stroke: green; border: 1px")] []) "#0000ff"
      (some "feather")) "#ff0000" (some "feather")).getAttr "stroke" = some "#ff0000" := by
  refine ⟨by decide, ?_⟩
  exact (c3_stroke_colorize_twice (Elem.mk "path"
    [("stroke", "green"), ("style", "stroke: green; border: 1px")] [])
    "#0000ff" "#ff0000" (by decide)).1

theorem setA_of_getA (l : List (String × String)) (n v : String)
    (h : getA l n = some v) : setA l n v = l := by
  induction l with
  | nil => cases h
  | cons p r ih =>
    rcases p with ⟨pk, pv⟩
    by_cases hn : pk = n
    · subst hn
      have hv : pv = v := by simpa [getA] using h
      subst hv
      simp [setA]
    · have h2 : getA r n = some v := by simpa [getA, hn] using h
      simp [setA, hn, ih h2]

theorem Elem.setAttr_of_getAttr (e : Elem) (n v : String)
    (h : e.getAttr n = some v) : e.setAttr n v = e := by
  cases e
  simp only [Elem.getAttr, Elem.attrs] at h
  simp [Elem.setAttr, Elem.attrs, Elem.tag, Elem.children, setA_of_getA _ _ _ h]

theorem getA_remA_self (l : List (String × String)) (n : String) :
    getA (remA l n) n = none := by
  induction l with
  | nil => rfl
  | cons p r ih =>
    rcases p with ⟨pk, pv⟩
    by_cases hn : pk = n
    · subst hn
      simpa [remA, List.filter_cons] using ih
    · have hb : (pk != n) = true := by simp [bne_iff_ne, hn]
      simp only [remA, List.filter_cons, hb, if_true] at ih ⊢
      simpa [getA, hn] using ih

theorem remA_setA_self (l : List (String × String)) (n v : String) :
    remA (setA l n v) n = remA l n := by
  induction l with
  | nil => simp [setA, remA, List.filter]
  | cons p r ih =>
    rcases p with ⟨pk, pv⟩
    by_cases hn : pk = n
    · subst hn
      simp [setA, remA, List.filter_cons]
    · have hb : (pk != n) = true := by simp [bne_iff_ne, hn]
      simp only [setA, remA, List.filter_cons] at ih ⊢
      simp [hn, hb, ih]

theorem remA_remA_self (l : List (String × String)) (n : String) :
    remA (remA l n) n = remA l n := by
  simp only [remA, List.filter_filter]
  congr 1
  funext a
  simp

theorem remA_remA_comm (l : List (String × String)) (k n : String) :
    remA (remA l k) n = remA (remA l n) k := by
  simp only [remA, List.filter_filter]
  congr 1
  funext a
  exact Bool.and_comm _ _

theorem Elem.getAttr_removeAttr_self (e : Elem) (n : String) :
    (e.removeAttr n).getAttr n = none := by
  cases e
  simp [Elem.removeAttr, Elem.getAttr, Elem.attrs, getA_remA_self]

theorem Elem.removeAttr_setAttr_self (e : Elem) (n v : String) :
    (e.setAttr n v).removeAttr n = e.removeAttr n := by
  cases e
  simp [Elem.setAttr, Elem.removeAttr, Elem.attrs, Elem.tag, Elem.children, remA_setA_self]

theorem Elem.removeAttr_removeAttr_self (e : Elem) (n : String) :
    (e.removeAttr n).removeAttr n = e.removeAttr n := by
  cases e
  simp [Elem.removeAttr, Elem.attrs, Elem.tag, Elem.children, remA_remA_self]

theorem Elem.removeAttr_removeAttr_comm (e : Elem) (k n : String) :
    (e.removeAttr k).removeAttr n = (e.removeAttr n).removeAttr k := by
  cases e
  simp only [Elem.removeAttr, Elem.attrs, Elem.tag, Elem.children]
  rw [remA_remA_comm]

theorem Elem.hasAttr_eq (e : Elem) (n : String) :
    e.hasAttr n = (e.getAttr n).isSome := rfl

theorem styleStep_removeAttr_comm (e : Elem) (k : String) (h : k ≠ "style") :
    styleStep (e.removeAttr k) = (styleStep e).removeAttr k := by
  unfold styleStep
  rw [Elem.getAttr_removeAttr_ne _ _ _ h]
  cases hs : e.getAttr "style" with
  | none => rfl
  | some s =>
    by_cases he : (s == "") = true
    · simp [he]
    · simp only [he, Bool.false_eq_true, if_false]
      by_cases hc : (cleanStyle s == "") = true
      · simp only [hc, if_pos]
        exact Elem.removeAttr_removeAttr_comm e k "style"
      · simp only [hc, Bool.false_eq_true, if_false]
        exact (Elem.removeAttr_setAttr_comm e "style" k (cleanStyle s) (Ne.symm h)).symm

theorem styleStep_idem (e : Elem)
    (hc : ∀ s, e.getAttr "style" = some s → cleanStyle (cleanStyle s) = cleanStyle s) :
    styleStep (styleStep e) = styleStep e := by
  cases hs : e.getAttr "style" with
  | none =>
    have h1 : styleStep e = e := by unfold styleStep; rw [hs]
    rw [h1, h1]
  | some s =>
    by_cases he : (s == "") = true
    · have h1 : styleStep e = e := by unfold styleStep; rw [hs]; simp [he]
      rw [h1, h1]
    · by_cases hcc : (cleanStyle s == "") = true
      · have h1 : styleStep e = e.removeAttr "style" := by
          unfold styleStep; rw [hs]; simp only [he, Bool.false_eq_true, if_false]; simp [hcc]
        rw [h1]
        unfold styleStep
        rw [Elem.getAttr_removeAttr_self]
      · have h1 : styleStep e = e.setAttr "style" (cleanStyle s) := by
          unfold styleStep; rw [hs]; simp only [he, Bool.false_eq_true, if_false]; simp [hcc]
        rw [h1]
        unfold styleStep
        rw [Elem.getAttr_setAttr_self]
        dsimp only
        have hcs : cleanStyle (cleanStyle s) = cleanStyle s := hc s hs
        have hne : (cleanStyle s == "") = false := by
          cases hb : (cleanStyle s == "") with
          | false => rfl
          | true => exact absurd hb hcc
        simp only [hne, Bool.false_eq_true, if_false]
        rw [hcs]
        simp only [hne, Bool.false_eq_true, if_false]
        rw [Elem.setAttr_setAttr_same]

theorem gStrip_false (e : Elem) : gStrip e false = e := rfl

theorem gStrip_true (e : Elem) :
    gStrip e true = ((e.removeAttr "stroke").removeAttr "fill").removeAttr "stroke-width" := rfl

theorem gStrip_styleStep_comm (e : Elem) (b : Bool) :
    gStrip (styleStep e) b = styleStep (gStrip e b) := by
  cases b with
  | false => rw [gStrip_false, gStrip_false]
  | true =>
    rw [gStrip_true, gStrip_true, styleStep_removeAttr_comm _ _ (by decide),
      styleStep_removeAttr_comm _ _ (by decide), styleStep_removeAttr_comm _ _ (by decide)]

theorem gStrip_idem (e : Elem) : gStrip (gStrip e true) true = gStrip e true := by
  have h1 : ∀ x : Elem,
      ((((x.removeAttr "stroke").removeAttr "fill").removeAttr "stroke-width").removeAttr
        "stroke") = ((x.removeAttr "stroke").removeAttr "fill").removeAttr "stroke-width" := by
    intro x
    rw [Elem.removeAttr_removeAttr_comm ((x.removeAttr "stroke").removeAttr "fill")
      "stroke-width" "stroke"]
    rw [Elem.removeAttr_removeAttr_comm (x.removeAttr "stroke") "fill" "stroke"]
    rw [Elem.removeAttr_removeAttr_self]
  have h2 : ∀ x : Elem,
      ((((x.removeAttr "stroke").removeAttr "fill").removeAttr "stroke-width").removeAttr
        "fill") = ((x.removeAttr "stroke").removeAttr "fill").removeAttr "stroke-width" := by
    intro x
    rw [Elem.removeAttr_removeAttr_comm ((x.removeAttr "stroke").removeAttr "fill")
      "stroke-width" "fill"]
    rw [Elem.removeAttr_removeAttr_self]
  rw [gStrip_true, gStrip_true, h1 e, h2 e, Elem.removeAttr_removeAttr_self]

theorem gStrip_setAttr_fill (e : Elem) (c : String) :
    gStrip (e.setAttr "fill" c) true = gStrip e true := by
  rw [gStrip_true, gStrip_true, Elem.removeAttr_setAttr_comm _ _ _ _ (by decide),
    Elem.removeAttr_setAttr_self]

theorem gStrip_getAttr_stroke (e : Elem) : (gStrip e true).getAttr "stroke" = none := by
  rw [gStrip_true, Elem.getAttr_removeAttr_ne _ _ _ (by decide),
    Elem.getAttr_removeAttr_ne _ _ _ (by decide), Elem.getAttr_removeAttr_self]

theorem gStrip_getAttr_fill (e : Elem) : (gStrip e true).getAttr "fill" = none := by
  rw [gStrip_true, Elem.getAttr_removeAttr_ne _ _ _ (by decide), Elem.getAttr_removeAttr_self]

theorem packStep_feather_true (e : Elem) (c : String) :
    packStep e c (some "feather") true =
      ((e.setAttr "stroke" c).setAttr "fill" "none").setAttr "stroke-width" "2" := rfl

theorem packStep_feather_false (e : Elem) (c : String) :
    packStep e c (some "feather") false = e := rfl

theorem packStep_phosphor_eq (e : Elem) (c : String) (sh : Bool) :
    packStep e c (some "phosphor") sh =
      (if (e.setAttr "fill" c).hasAttr "stroke" then
        (e.setAttr "fill" c).setAttr "stroke" "none" else e.setAttr "fill" c) := rfl

theorem packStep_default (e : Elem) (c : String) (p : Option String) (sh : Bool)
    (h1 : p ≠ some "feather") (h2 : p ≠ some "phosphor") :
    packStep e c p sh = packStep e c none sh := by
  unfold packStep
  split
  · exact absurd rfl h1
  · exact absurd rfl h2
  · rfl

theorem packStep_none_eq (e : Elem) (c : String) (sh : Bool) :
    packStep e c none sh =
      (match e.getAttr "fill" with
       | some w =>
         if w != "none" then
           (match e.getAttr "stroke" with
            | some v => if v != "none" then e.setAttr "stroke" c else e
            | none => e).setAttr "fill" c
         else
           (match e.getAttr "stroke" with
            | some v => if v != "none" then e.setAttr "stroke" c else e
            | none => e)
       | none =>
         (match e.getAttr "stroke" with
          | some v => if v != "none" then e.setAttr "stroke" c else e
          | none => e)) := rfl

theorem packStep_none_stroke_stable (e : Elem) (c : String) (sh : Bool) (u : String)
    (hu : (packStep e c none sh).getAttr "stroke" = some u) : u = "none" ∨ u = c := by
  rw [packStep_none_eq] at hu
  rcases hs : e.getAttr "stroke" with _ | v <;>
    rcases hf : e.getAttr "fill" with _ | w <;>
      simp only [hs, hf] at hu
  · cases hu
  · by_cases hw : (w != "none") = true
    · rw [if_pos hw, Elem.getAttr_setAttr_ne _ _ _ _ (by decide), hs] at hu
      cases hu
    · rw [if_neg hw, hs] at hu
      cases hu
  · by_cases hv : (v != "none") = true
    · rw [if_pos hv, Elem.getAttr_setAttr_self] at hu
      right; exact (Option.some.inj hu).symm
    · have hvn : v = "none" := by
        have : (v != "none") = false := by
          cases hb : (v != "none") with
          | false => rfl
          | true => exact absurd hb hv
        simpa [bne_iff_ne] using this
      rw [if_neg hv, hs] at hu
      left; rw [← (Option.some.inj hu), hvn]
  · by_cases hv : (v != "none") = true
    · by_cases hw : (w != "none") = true
      · rw [if_pos hw, if_pos hv, Elem.getAttr_setAttr_ne _ _ _ _ (by decide),
          Elem.getAttr_setAttr_self] at hu
        right; exact (Option.some.inj hu).symm
      · rw [if_neg hw, if_pos hv, Elem.getAttr_setAttr_self] at hu
        right; exact (Option.some.inj hu).symm
    · have hvn : v = "none" := by
        have : (v != "none") = false := by
          cases hb : (v != "none") with
          | false => rfl
          | true => exact absurd hb hv
        simpa [bne_iff_ne] using this
      by_cases hw : (w != "none") = true
      · rw [if_pos hw, if_neg hv, Elem.getAttr_setAttr_ne _ _ _ _ (by decide), hs] at hu
        left; rw [← (Option.some.inj hu), hvn]
      · rw [if_neg hw, if_neg hv, hs] at hu
        left; rw [← (Option.some.inj hu), hvn]

theorem packStep_none_fill_stable (e : Elem) (c : String) (sh : Bool) (u : String)
    (hu : (packStep e c none sh).getAttr "fill" = some u) : u = "none" ∨ u = c := by
  rw [packStep_none_eq] at hu
  rcases hs : e.getAttr "stroke" with _ | v <;>
    rcases hf : e.getAttr "fill" with _ | w <;>
      simp only [hs, hf] at hu
  · cases hu
  · by_cases hw : (w != "none") = true
    · rw [if_pos hw, Elem.getAttr_setAttr_self] at hu
      right; exact (Option.some.inj hu).symm
    · have hwn : w = "none" := by
        have : (w != "none") = false := by
          cases hb : (w != "none") with
          | false => rfl
          | true => exact absurd hb hw
        simpa [bne_iff_ne] using this
      rw [if_neg hw, hf] at hu
      left; rw [← (Option.some.inj hu), hwn]
  · by_cases hv : (v != "none") = true
    · rw [if_pos hv, Elem.getAttr_setAttr_ne _ _ _ _ (by decide), hf] at hu
      cases hu
    · rw [if_neg hv, hf] at hu
      cases hu
  · by_cases hw : (w != "none") = true
    · by_cases hv : (v != "none") = true
      · rw [if_pos hw, if_pos hv, Elem.getAttr_setAttr_self] at hu
        right; exact (Option.some.inj hu).symm
      · rw [if_pos hw, if_neg hv, Elem.getAttr_setAttr_self] at hu
        right; exact (Option.some.inj hu).symm
    · have hwn : w = "none" := by
        have : (w != "none") = false := by
          cases hb : (w != "none") with
          | false => rfl
          | true => exact absurd hb hw
        simpa [bne_iff_ne] using this
      by_cases hv : (v != "none") = true
      · rw [if_neg hw, if_pos hv, Elem.getAttr_setAttr_ne _ _ _ _ (by decide), hf] at hu
        left; rw [← (Option.some.inj hu), hwn]
      · rw [if_neg hw, if_neg hv, hf] at hu
        left; rw [← (Option.some.inj hu), hwn]

theorem packStep_none_stable (e : Elem) (c : String) (sh : Bool)
    (hst : ∀ u, e.getAttr "stroke" = some u → u = "none" ∨ u = c)
    (hfl : ∀ u, e.getAttr "fill" = some u → u = "none" ∨ u = c) :
    packStep e c none sh = e := by
  rw [packStep_none_eq]
  have hMs : (match e.getAttr "stroke" with
      | some v => if v != "none" then e.setAttr "stroke" c else e
      | none => e) = e := by
    rcases hs : e.getAttr "stroke" with _ | v
    · rfl
    · dsimp only
      rcases hst v hs with hv | hv
      · have hb : (v != "none") = false := by simp [hv]
        simp only [hb, Bool.false_eq_true, if_false]
      · subst hv
        by_cases hb : (v != "none") = true
        · rw [if_pos hb, Elem.setAttr_of_getAttr e "stroke" v hs]
        · rw [if_neg hb]
  rw [hMs]
  rcases hf : e.getAttr "fill" with _ | w
  · rfl
  · dsimp only
    rcases hfl w hf with hw | hw
    · have hb : (w != "none") = false := by simp [hw]
      simp only [hb, Bool.false_eq_true, if_false]
    · subst hw
      by_cases hb : (w != "none") = true
      · rw [if_pos hb, Elem.setAttr_of_getAttr e "fill" w hf]
      · rw [if_neg hb]

theorem packStep_none_idem (e : Elem) (c : String) (sh sh2 : Bool) :
    packStep (packStep e c none sh) c none sh2 = packStep e c none sh := by
  apply packStep_none_stable
  · exact fun u hu => packStep_none_stroke_stable e c sh u hu
  · exact fun u hu => packStep_none_fill_stable e c sh u hu

theorem packStep_none_of_absent (e : Elem) (c : String) (sh : Bool)
    (hs : e.getAttr "stroke" = none) (hf : e.getAttr "fill" = none) :
    packStep e c none sh = e := by
  rw [packStep_none_eq, hs, hf]

theorem feather_set_idem (e : Elem) (c : String) :
    ((((((e.setAttr "stroke" c).setAttr "fill" "none").setAttr "stroke-width" "2").setAttr
      "stroke" c).setAttr "fill" "none").setAttr "stroke-width" "2") =
    ((e.setAttr "stroke" c).setAttr "fill" "none").setAttr "stroke-width" "2" := by
  rw [Elem.setAttr_comm_present ((e.setAttr "stroke" c).setAttr "fill" "none")
    "stroke-width" "stroke" "2" c (by decide)
    (by rw [Elem.getAttr_setAttr_ne _ _ _ _ (by decide), Elem.getAttr_setAttr_self]; simp)]
  rw [Elem.setAttr_comm_present (e.setAttr "stroke" c) "fill" "stroke" "none" c (by decide)
    (by rw [Elem.getAttr_setAttr_self]; simp)]
  rw [Elem.setAttr_setAttr_same e "stroke" c c]
  rw [Elem.setAttr_comm_present ((e.setAttr "stroke" c).setAttr "fill" "none")
    "stroke-width" "fill" "2" "none" (by decide)
    (by rw [Elem.getAttr_setAttr_self]; simp)]
  rw [Elem.setAttr_setAttr_same (e.setAttr "stroke" c) "fill" "none" "none"]
  rw [Elem.setAttr_setAttr_same _ "stroke-width" "2" "2"]

theorem packStep_feather_idem (e : Elem) (c : String) :
    packStep (packStep e c (some "feather") true) c (some "feather") true =
      packStep e c (some "feather") true := by
  rw [packStep_feather_true, packStep_feather_true, feather_set_idem]

theorem packStep_phosphor_idem (e : Elem) (c : String) (sh sh2 : Bool) :
    packStep (packStep e c (some "phosphor") sh) c (some "phosphor") sh2 =
      packStep e c (some "phosphor") sh := by
  rw [packStep_phosphor_eq e c sh]
  by_cases hb : (e.setAttr "fill" c).hasAttr "stroke" = true
  · rw [if_pos hb]
    rw [packStep_phosphor_eq]
    have hfc : ((e.setAttr "fill" c).setAttr "stroke" "none").getAttr "fill" = some c := by
      rw [Elem.getAttr_setAttr_ne _ _ _ _ (by decide), Elem.getAttr_setAttr_self]
    have hE : (((e.setAttr "fill" c).setAttr "stroke" "none").setAttr "fill" c) =
        (e.setAttr "fill" c).setAttr "stroke" "none" := Elem.setAttr_of_getAttr _ _ _ hfc
    rw [hE]
    have hb2 : ((e.setAttr "fill" c).setAttr "stroke" "none").hasAttr "stroke" = true := by
      rw [Elem.hasAttr_eq, Elem.getAttr_setAttr_self]
      rfl
    rw [if_pos hb2, Elem.setAttr_setAttr_same]
  · rw [if_neg hb]
    rw [packStep_phosphor_eq]
    rw [Elem.setAttr_setAttr_same]
    rw [if_neg hb]

theorem packStep_shape_idem (e : Elem) (c : String) (p : Option String) :
    packStep (packStep e c p true) c p true = packStep e c p true := by
  by_cases hf : p = some "feather"
  · subst hf; exact packStep_feather_idem e c
  · by_cases hp : p = some "phosphor"
    · subst hp; exact packStep_phosphor_idem e c true true
    · rw [packStep_default (packStep e c p true) c p true hf hp,
        packStep_default e c p true hf hp, packStep_none_idem]

theorem packStrip_g_idem (e : Elem) (c : String) (p : Option String) :
    packStep (gStrip (packStep (gStrip e true) c p false) true) c p false =
      packStep (gStrip e true) c p false := by
  by_cases hf : p = some "feather"
  · subst hf
    rw [packStep_feather_false, packStep_feather_false, gStrip_idem]
  · by_cases hp : p = some "phosphor"
    · subst hp
      have hb : ((gStrip e true).setAttr "fill" c).hasAttr "stroke" = false := by
        rw [Elem.hasAttr_eq, Elem.getAttr_setAttr_ne _ _ _ _ (by decide),
          gStrip_getAttr_stroke]
        rfl
      have h1 : packStep (gStrip e true) c (some "phosphor") false =
          (gStrip e true).setAttr "fill" c := by
        rw [packStep_phosphor_eq]
        simp only [hb, Bool.false_eq_true, if_false]
      rw [h1]
      have h2 : gStrip ((gStrip e true).setAttr "fill" c) true = gStrip e true := by
        rw [gStrip_setAttr_fill, gStrip_idem]
      rw [h2, h1]
    · rw [packStep_default _ c p false hf hp]
      rw [packStep_default (gStrip e true) c p false hf hp]
      have h1 : packStep (gStrip e true) c none false = gStrip e true :=
        packStep_none_of_absent _ _ _ (gStrip_getAttr_stroke e) (gStrip_getAttr_fill e)
      rw [h1, gStrip_idem, h1]

theorem packStep_none_styleStep_comm (e : Elem) (c : String) (sh : Bool) :
    packStep (styleStep e) c none sh = styleStep (packStep e c none sh) := by
  rw [packStep_none_eq, packStep_none_eq]
  have hS : (styleStep e).getAttr "stroke" = e.getAttr "stroke" :=
    styleStep_getAttr_ne _ _ (by decide)
  have hF : (styleStep e).getAttr "fill" = e.getAttr "fill" :=
    styleStep_getAttr_ne _ _ (by decide)
  rw [hS, hF]
  rcases hs : e.getAttr "stroke" with _ | v <;> rcases hf : e.getAttr "fill" with _ | w <;>
    dsimp only
  · by_cases hw : (w != "none") = true
    · rw [if_pos hw, if_pos hw, styleStep_setAttr_comm _ _ _ (by decide)]
    · rw [if_neg hw, if_neg hw]
  · by_cases hv : (v != "none") = true
    · rw [if_pos hv, if_pos hv, styleStep_setAttr_comm _ _ _ (by decide)]
    · rw [if_neg hv, if_neg hv]
  · by_cases hv : (v != "none") = true <;> by_cases hw : (w != "none") = true
    · rw [if_pos hw, if_pos hw, if_pos hv, if_pos hv,
        styleStep_setAttr_comm _ _ _ (by decide), styleStep_setAttr_comm _ _ _ (by decide)]
    · rw [if_neg hw, if_neg hw, if_pos hv, if_pos hv,
        styleStep_setAttr_comm _ _ _ (by decide)]
    · rw [if_pos hw, if_pos hw, if_neg hv, if_neg hv,
        styleStep_setAttr_comm _ _ _ (by decide)]
    · rw [if_neg hw, if_neg hw, if_neg hv, if_neg hv]

theorem packStep_styleStep_comm (e : Elem) (c : String) (p : Option String) (sh : Bool) :
    packStep (styleStep e) c p sh = styleStep (packStep e c p sh) := by
  by_cases hfp : p = some "feather"
  · subst hfp
    cases sh
    · rw [packStep_feather_false, packStep_feather_false]
    · rw [packStep_feather_true, packStep_feather_true,
        styleStep_setAttr_comm _ _ _ (by decide), styleStep_setAttr_comm _ _ _ (by decide),
        styleStep_setAttr_comm _ _ _ (by decide)]
  · by_cases hpp : p = some "phosphor"
    · subst hpp
      rw [packStep_phosphor_eq, packStep_phosphor_eq]
      have hh : ((styleStep e).setAttr "fill" c).hasAttr "stroke" =
          (e.setAttr "fill" c).hasAttr "stroke" := by
        rw [Elem.hasAttr_eq, Elem.hasAttr_eq, Elem.getAttr_setAttr_ne _ _ _ _ (by decide),
          Elem.getAttr_setAttr_ne _ _ _ _ (by decide), styleStep_getAttr_ne _ _ (by decide)]
      rw [hh]
      by_cases hb : (e.setAttr "fill" c).hasAttr "stroke" = true
      · rw [if_pos hb, if_pos hb, styleStep_setAttr_comm _ _ _ (by decide),
          styleStep_setAttr_comm _ _ _ (by decide)]
      · rw [if_neg hb, if_neg hb, styleStep_setAttr_comm _ _ _ (by decide)]
    · rw [packStep_default _ c p sh hfp hpp, packStep_default e c p sh hfp hpp,
        packStep_none_styleStep_comm]

theorem apsc_skip (e : Elem) (c : String) (p : Option String)
    (h : (!shapeTags.contains (toLowerStr e.tag) && (toLowerStr e.tag != "g")) = true) :
    applyPackSpecificColor e c p = e := by
  unfold applyPackSpecificColor
  dsimp only
  rw [if_pos h]

theorem apsc_go (e : Elem) (c : String) (p : Option String)
    (h : (!shapeTags.contains (toLowerStr e.tag) && (toLowerStr e.tag != "g")) = false) :
    applyPackSpecificColor e c p =
      styleStep (packStep (gStrip e (toLowerStr e.tag == "g")) c p
        (shapeTags.contains (toLowerStr e.tag))) := by
  unfold applyPackSpecificColor
  dsimp only
  simp only [h, Bool.false_eq_true, if_false]

/-- C7 (amended): colourization with a fixed colour and pack is idempotent
for every element whose inline style value, when present, is itself a fixed
point of a second clean-up pass. -/
theorem c7_colorize_idempotent (e : Elem) (c : String) (p : Option String)
    (hc : ∀ s, e.getAttr "style" = some s → cleanStyle (cleanStyle s) = cleanStyle s) :
    applyPackSpecificColor (applyPackSpecificColor e c p) c p =
      applyPackSpecificColor e c p := by
  by_cases hskip :
      (!shapeTags.contains (toLowerStr e.tag) && (toLowerStr e.tag != "g")) = true
  · rw [apsc_skip e c p hskip, apsc_skip e c p hskip]
  · have hb : (!shapeTags.contains (toLowerStr e.tag) && (toLowerStr e.tag != "g")) =
        false := by
      cases hx : (!shapeTags.contains (toLowerStr e.tag) && (toLowerStr e.tag != "g")) with
      | false => rfl
      | true => exact absurd hx hskip
    rw [apsc_go e c p hb]
    have htag : toLowerStr (styleStep (packStep (gStrip e (toLowerStr e.tag == "g")) c p
        (shapeTags.contains (toLowerStr e.tag)))).tag = toLowerStr e.tag := by
      rw [styleStep_tag, packStep_tag, gStrip_tag]
    have hb2 : (!shapeTags.contains (toLowerStr (styleStep (packStep (gStrip e
        (toLowerStr e.tag == "g")) c p (shapeTags.contains (toLowerStr e.tag)))).tag) &&
        (toLowerStr (styleStep (packStep (gStrip e (toLowerStr e.tag == "g")) c p
        (shapeTags.contains (toLowerStr e.tag)))).tag != "g")) = false := by
      rw [htag]; exact hb
    rw [apsc_go _ c p hb2, htag]
    rw [gStrip_styleStep_comm, packStep_styleStep_comm]
    have hcase : shapeTags.contains (toLowerStr e.tag) = true ∨
        (toLowerStr e.tag == "g") = true := by
      rcases hx : shapeTags.contains (toLowerStr e.tag) with _ | _
      · right
        rw [hx] at hb
        simp only [Bool.not_false, Bool.true_and] at hb
        simp only [bne] at hb
        simpa using hb
      · left; rfl
    rcases hcase with hsh | hg
    · have hng : (toLowerStr e.tag == "g") = false := shape_not_g e hsh
      rw [hsh, hng, gStrip_false, gStrip_false, packStep_shape_idem]
      rw [styleStep_idem]
      intro s hs
      rw [packStep_getAttr_other _ _ _ _ _ (by decide) (by decide) (by decide)] at hs
      exact hc s hs
    · have htg : toLowerStr e.tag = "g" := eq_of_beq hg
      have hsh0 : shapeTags.contains (toLowerStr e.tag) = false := by
        rw [htg]; decide
      rw [hg, hsh0, packStrip_g_idem]
      rw [styleStep_idem]
      intro s hs
      rw [packStep_getAttr_other _ _ _ _ _ (by decide) (by decide) (by decide),
        gStrip_getAttr_other _ _ _ (by decide) (by decide) (by decide)] at hs
      exact hc s hs

/-- C7: counterexample to unconditional idempotence — on `wShape7` the
first colourization leaves `style="stroke: b"` (the single-pass removal of
`stroke: a;` uncovers it), and the second pass then removes the attribute. -/
theorem c7_idempotence_cex :
    applyPackSpecificColor (applyPackSpecificColor wShape7 "#ff0000" none) "#ff0000" none ≠
      applyPackSpecificColor wShape7 "#ff0000" none := by decide

/-- Witness for the amended C7 at a concrete shape element whose style
value cleans idempotently. -/
theorem c7_colorize_idempotent_witness :
    applyPackSpecificColor (applyPackSpecificColor wShape7b "#00ff00" none) "#00ff00" none =
      applyPackSpecificColor wShape7b "#00ff00" none := by
  apply c7_colorize_idempotent
  intro s hs
  have h0 : wShape7b.getAttr "style" = some "stroke: a; border: 1px" := by decide
  rw [h0] at hs
  have hv : s = "stroke: a; border: 1px" := (Option.some.inj hs).symm
  subst hv
  decide

theorem applyColorList_eq_map (cl : String) (pid : Option String) :
    ∀ l : List Elem, applyColorList cl pid l = l.map (applyColorRec cl pid)
  | [] => rfl
  | e :: r => by
    show applyColorRec cl pid e :: applyColorList cl pid r = _
    rw [List.map_cons, applyColorList_eq_map cl pid r]

mutual
theorem locList_none (p : Elem → Bool) : ∀ l, anyList p l = false → locList p l = none
  | [], _ => rfl
  | d :: rest, h => by
    rcases Bool.or_eq_false_iff.mp (by rwa [anyList_cons] at h) with ⟨h1, h2⟩
    have hpd : p d = false := by
      cases d with
      | mk t a c =>
        rcases Bool.or_eq_false_iff.mp (by rwa [anyElem_mk] at h1) with ⟨hp, _⟩
        exact hp
    simp only [locList, hpd, Bool.false_eq_true, if_false]
    rw [locElem_none p d h1, locList_none p rest h2]
theorem locElem_none (p : Elem → Bool) : ∀ e, anyElem p e = false → locElem p e = none
  | .mk t a c, h => by
    rcases Bool.or_eq_false_iff.mp (by rwa [anyElem_mk] at h) with ⟨_, h2⟩
    show locList p c = none
    exact locList_none p c h2
end

theorem qloc_missing_of (p : Elem → Bool) : ∀ l, anyList p l = false → qloc p l = .missing
  | [], _ => rfl
  | d :: rest, h => by
    rcases Bool.or_eq_false_iff.mp (by rwa [anyList_cons] at h) with ⟨h1, h2⟩
    have hpd : p d = false := by
      cases d with
      | mk t a c =>
        rcases Bool.or_eq_false_iff.mp (by rwa [anyElem_mk] at h1) with ⟨hp, _⟩
        exact hp
    simp only [qloc, hpd, Bool.false_eq_true, if_false]
    rw [locElem_none p d h1, qloc_missing_of p rest h2]

theorem qloc_cons_skip (p : Elem → Bool) (d : Elem) (rest : List Elem)
    (hpd : p d = false) (hl : locElem p d = none) :
    qloc p (d :: rest) =
      match qloc p rest with
      | .missing => QLoc.missing
      | .root i b => .root (i + 1) b
      | .nested b => .nested b := by
  simp only [qloc, hpd, Bool.false_eq_true, if_false, hl]
  all_goals cases qloc p rest <;> rfl

theorem anyList_false_of_imp (p q : Elem → Bool) (hpq : ∀ x, q x = true → p x = true)
    (l : List Elem) (h : anyList p l = false) : anyList q l = false := by
  cases hq : anyList q l with
  | false => rfl
  | true => rw [anyList_imp p q hpq l hq] at h; cases h

mutual
theorem anyElem_eq_any_preOrder (p : Elem → Bool) :
    ∀ e, anyElem p e = (preOrder e).any p
  | .mk t a c => by
    rw [anyElem_mk]
    show _ = (Elem.mk t a c :: preOrderList c).any p
    rw [List.any_cons, anyList_eq_any_preOrder p c]
theorem anyList_eq_any_preOrder (p : Elem → Bool) :
    ∀ l, anyList p l = (preOrderList l).any p
  | [] => rfl
  | e :: r => by
    rw [anyList_cons]
    show _ = (preOrder e ++ preOrderList r).any p
    rw [List.any_append, anyElem_eq_any_preOrder p e, anyList_eq_any_preOrder p r]
end

theorem insertIdx_one_cons (x a : MChild) (l : List MChild) :
    List.insertIdx 1 x (a :: l) = a :: x :: l := by
  rw [List.insertIdx_succ_cons, List.insertIdx_zero]

theorem insertIdx_two_cons (x a b : MChild) (l : List MChild) :
    List.insertIdx 2 x (a :: b :: l) = a :: b :: x :: l := by
  rw [List.insertIdx_succ_cons, List.insertIdx_succ_cons, List.insertIdx_zero]

theorem contentOf_clean (ic : String) (pid : Option String) (cs : List Elem)
    (h : ∀ ch ∈ cs, (toLowerStr ch.tag == "defs") = false) :
    contentOf ic pid cs = cs.map fun ch => (true, applyColorRec ic pid ch) := by
  induction cs with
  | nil => rfl
  | cons ch r ih =>
    have hch := h ch (List.mem_cons_self ch r)
    have hr : ∀ x ∈ r, (toLowerStr x.tag == "defs") = false := fun x hx =>
      h x (List.mem_cons_of_mem ch hx)
    show (if (toLowerStr ch.tag == "defs") = true then ((false, ch) : MChild)
        else (true, applyColorRec ic pid ch)) :: contentOf ic pid r = _
    rw [List.map_cons, ih hr]
    simp only [hch, Bool.false_eq_true, if_false]

theorem tag_applyColorRec (cl : String) (pid : Option String) (e : Elem) :
    (applyColorRec cl pid e).tag = e.tag := by
  cases e with
  | mk t a c => exact apsc_tag (.mk t a c) cl pid

theorem isBgQ_imp_rect (x : Elem) (h : isBgQ x = true) : (x.tag == "rect") = true := by
  unfold isBgQ at h
  rcases Bool.and_eq_true_iff.mp h with ⟨h1, _⟩
  rcases Bool.and_eq_true_iff.mp h1 with ⟨h2, _⟩
  exact h2

theorem isGuardB_imp_rect (x : Elem) (h : isGuardB x = true) : (x.tag == "rect") = true := by
  unfold isGuardB at h
  rcases Bool.and_eq_true_iff.mp h with ⟨h1, _⟩
  rcases Bool.and_eq_true_iff.mp h1 with ⟨h2, _⟩
  exact h2

theorem isDefsQ_imp_low (x : Elem) (h : isDefsQ x = true) :
    (toLowerStr x.tag == "defs") = true := by
  have hx : x.tag = "defs" := eq_of_beq h
  rw [hx]
  decide

theorem isBgQ_bgRect (b : Box) (r : JsN) (c : String) :
    isBgQ (bgRectFor b r c) = true := rfl

theorem isBgQ_clipDefs (b : Box) (r : JsN) (buf : Q) :
    isBgQ (clipDefs b r buf) = false := rfl

theorem isDefsQ_clipDefs (b : Box) (r : JsN) (buf : Q) :
    isDefsQ (clipDefs b r buf) = true := rfl

theorem filter_unmarked_map (f : Elem → Elem) (l : List Elem) :
    ((l.map fun ch => ((true, f ch) : MChild)).filter fun m => !m.1) = [] := by
  induction l with
  | nil => rfl
  | cons a r ih => simp only [List.map_cons, List.filter_cons]; simp [ih]

theorem filter_marked_map (f : Elem → Elem) (l : List Elem) :
    ((l.map fun ch => ((true, f ch) : MChild)).filter fun m => m.1) =
      l.map fun ch => ((true, f ch) : MChild) := by
  induction l with
  | nil => rfl
  | cons a r ih => simp only [List.map_cons, List.filter_cons]; simp [ih]

theorem map_snd_marked (f : Elem → Elem) (l : List Elem) :
    ((l.map fun ch => ((true, f ch) : MChild)).map Prod.snd) = l.map f := by
  induction l with
  | nil => rfl
  | cons a r ih => simp only [List.map_cons, ih]

theorem filter_unmarked_pre (pre : List Elem) :
    ((pre.map fun x => ((false, x) : MChild)).filter fun m => !m.1) =
      pre.map fun x => ((false, x) : MChild) := by
  induction pre with
  | nil => rfl
  | cons a r ih => simp only [List.map_cons, List.filter_cons]; simp [ih]

theorem filter_marked_pre (pre : List Elem) :
    ((pre.map fun x => ((false, x) : MChild)).filter fun m => m.1) = [] := by
  induction pre with
  | nil => rfl
  | cons a r ih => simp only [List.map_cons, List.filter_cons]; simp [ih]

theorem map_snd_unmarked (pre : List Elem) :
    ((pre.map fun x => ((false, x) : MChild)).map Prod.snd) = pre := by
  induction pre with
  | nil => rfl
  | cons a r ih => simp only [List.map_cons, ih]

theorem finStep_pos (cr : Q) (hcr : Q.lt 0 cr = true) (pre : List Elem) (l : List Elem)
    (f : Elem → Elem) :
    finStep cr ((pre.map fun x => ((false, x) : MChild)) ++
        (l.map fun ch => ((true, f ch) : MChild))) =
      pre ++ [Elem.mk "g" [("clip-path", "url(#rounded-corner-clip)")] (l.map f)] := by
  unfold finStep
  rw [if_pos hcr, List.filter_append, List.filter_append, filter_unmarked_map,
    filter_marked_map, filter_unmarked_pre, filter_marked_pre, List.append_nil,
    List.nil_append, map_snd_unmarked, map_snd_marked]

theorem finStep_zero (cr : Q) (hcr : Q.lt 0 cr = false) (ms : List MChild) :
    finStep cr ms = ms.map Prod.snd := by
  unfold finStep
  simp only [hcr, Bool.false_eq_true, if_false]

theorem insertBg_clip_cons (bg : MChild) (b : Box) (r : JsN) (buf : Q) (m0 : MChild)
    (rest : List MChild) :
    insertBg bg ((false, clipDefs b r buf) :: m0 :: rest) =
      .ok ((false, clipDefs b r buf) :: bg :: m0 :: rest) := by
  unfold insertBg
  rw [List.map_cons, qloc_cons_true isDefsQ _ _ (isDefsQ_clipDefs b r buf)]
  simp only [List.map_cons, List.isEmpty_cons, Bool.not_false]
  rw [insertIdx_one_cons]

theorem insertBg_missing (bg : MChild) (ms : List MChild)
    (h : qloc isDefsQ (ms.map Prod.snd) = .missing) :
    insertBg bg ms = .ok (bg :: ms) := by
  unfold insertBg
  rw [h]

theorem insertGuard_bg_first (gr bgM m0 : MChild) (rest : List MChild)
    (hbg : isBgQ bgM.2 = true) :
    insertGuard gr (bgM :: m0 :: rest) = .ok (bgM :: gr :: m0 :: rest) := by
  unfold insertGuard
  rw [List.map_cons, qloc_cons_true isBgQ _ _ hbg]
  simp only [List.map_cons, List.isEmpty_cons, Bool.not_false]
  rw [insertIdx_one_cons]

theorem insertGuard_clip_bg (gr : MChild) (b : Box) (r : JsN) (buf : Q)
    (bgM m0 : MChild) (rest : List MChild) (hbg : isBgQ bgM.2 = true) :
    insertGuard gr ((false, clipDefs b r buf) :: bgM :: m0 :: rest) =
      .ok ((false, clipDefs b r buf) :: bgM :: gr :: m0 :: rest) := by
  unfold insertGuard
  rw [List.map_cons,
    qloc_cons_skip isBgQ _ _ (isBgQ_clipDefs b r buf) (locElem_clipDefs_isBgQ b r buf)]
  rw [List.map_cons, qloc_cons_true isBgQ _ _ hbg]
  simp only [List.map_cons, List.isEmpty_cons, Bool.not_false]
  rw [insertIdx_two_cons]

theorem insertGuard_clip_nobg (gr : MChild) (b : Box) (r : JsN) (buf : Q)
    (m0 : MChild) (rest : List MChild)
    (hmiss : anyList isBgQ ((m0 :: rest).map Prod.snd) = false) :
    insertGuard gr ((false, clipDefs b r buf) :: m0 :: rest) =
      .ok ((false, clipDefs b r buf) :: gr :: m0 :: rest) := by
  unfold insertGuard
  rw [List.map_cons,
    qloc_cons_skip isBgQ _ _ (isBgQ_clipDefs b r buf) (locElem_clipDefs_isBgQ b r buf)]
  rw [qloc_missing_of isBgQ _ hmiss]
  rw [List.map_cons, qloc_cons_true isDefsQ _ _ (isDefsQ_clipDefs b r buf)]
  simp only [List.map_cons, List.isEmpty_cons, Bool.not_false]
  rw [insertIdx_one_cons]

theorem insertGuard_missing (gr : MChild) (ms : List MChild)
    (h1 : qloc isBgQ (ms.map Prod.snd) = .missing)
    (h2 : qloc isDefsQ (ms.map Prod.snd) = .missing) :
    insertGuard gr ms = .ok (gr :: ms) := by
  unfold insertGuard
  rw [h1, h2]

theorem buildChildren_clean (box : Box) (ic bgc : String) (cr : Q) (padOn : Bool)
    (pid : Option String) (cs : List Elem)
    (hcl : anyList (fun x => (toLowerStr x.tag == "defs") || (x.tag == "rect")) cs = false)
    (hne : cs ≠ []) :
    buildChildren box ic bgc cr padOn pid cs = .ok (
      if Q.lt 0 cr then
        clipDefs box (radiusOf box cr) (bufferFor pid) ::
          ((if bgc != "transparent" then [bgRectFor box (radiusOf box cr) bgc] else []) ++
           (if padOn then [guardRectFor box (radiusOf box cr)] else []) ++
           [Elem.mk "g" [("clip-path", "url(#rounded-corner-clip)")]
             (applyColorList ic pid cs)])
      else
        (if bgc != "transparent" then [bgRectFor box (radiusOf box cr) bgc] else []) ++
        (if padOn then [guardRectFor box (radiusOf box cr)] else []) ++
        applyColorList ic pid cs) := by
  cases cs with
  | nil => exact absurd rfl hne
  | cons c0 cs' =>
  have hmark : ∀ ch ∈ c0 :: cs', (toLowerStr ch.tag == "defs") = false := by
    intro ch hch
    have hx := anyList_false_mem _ _ ch hcl hch
    cases ch with
    | mk t a c =>
      rcases Bool.or_eq_false_iff.mp (by rwa [anyElem_mk] at hx) with ⟨hp, _⟩
      rcases Bool.or_eq_false_iff.mp hp with ⟨h1, _⟩
      exact h1
  have hcont : contentOf ic pid (c0 :: cs') =
      (c0 :: cs').map fun ch => ((true, applyColorRec ic pid ch) : MChild) :=
    contentOf_clean ic pid _ hmark
  have hcolhaz : anyList (fun x => (toLowerStr x.tag == "defs") || (x.tag == "rect"))
      (applyColorList ic pid (c0 :: cs')) = false := by
    rw [anyList_colorize ic pid (fun x => (toLowerStr x.tag == "defs") || (x.tag == "rect"))
      (fun t a c1 c2 => rfl) (fun x => by simp only [apsc_tag])]
    exact hcl
  have hACm : applyColorList ic pid (c0 :: cs') =
      applyColorRec ic pid c0 :: cs'.map (applyColorRec ic pid) := by
    rw [applyColorList_eq_map, List.map_cons]
  have hdefsC : anyList isDefsQ (applyColorList ic pid (c0 :: cs')) = false :=
    anyList_false_of_imp _ isDefsQ
      (fun x hx => by rw [isDefsQ_imp_low x hx]; rfl) _ hcolhaz
  have hbgC : anyList isBgQ (applyColorList ic pid (c0 :: cs')) = false :=
    anyList_false_of_imp _ isBgQ
      (fun x hx => by rw [isBgQ_imp_rect x hx]; exact Bool.or_true _) _ hcolhaz
  have hsndC : (((c0 :: cs').map fun ch => ((true, applyColorRec ic pid ch) : MChild)).map
      Prod.snd) = applyColorList ic pid (c0 :: cs') := by
    rw [map_snd_marked, applyColorList_eq_map]
  simp only [buildChildren]
  by_cases hcr : Q.lt 0 cr = true
  · have hms1 : msInit box ic cr pid (c0 :: cs') =
        (false, clipDefs box (radiusOf box cr) (bufferFor pid)) ::
          (true, applyColorRec ic pid c0) ::
          cs'.map fun ch => ((true, applyColorRec ic pid ch) : MChild) := by
      unfold msInit
      rw [if_pos hcr, hcont, List.map_cons]
    rw [hms1]
    simp only [hcr, if_true]
    by_cases hbg : (bgc != "transparent") = true
    · simp only [hbg, if_true]
      rw [insertBg_clip_cons]
      dsimp only
      by_cases hpd : padOn = true
      · simp only [hpd, if_true]
        rw [insertGuard_clip_bg _ _ _ _ _ _ _ (isBgQ_bgRect box (radiusOf box cr) bgc)]
        dsimp only
        have hshape : ((false, clipDefs box (radiusOf box cr) (bufferFor pid)) ::
            ((false, bgRectFor box (radiusOf box cr) bgc) : MChild) ::
            ((false, guardRectFor box (radiusOf box cr)) : MChild) ::
            (true, applyColorRec ic pid c0) ::
            (cs'.map fun ch => ((true, applyColorRec ic pid ch) : MChild))) =
            (([clipDefs box (radiusOf box cr) (bufferFor pid),
               bgRectFor box (radiusOf box cr) bgc,
               guardRectFor box (radiusOf box cr)].map fun x => ((false, x) : MChild)) ++
             ((c0 :: cs').map fun ch =>
               ((true, applyColorRec ic pid ch) : MChild))) := rfl
        rw [hshape, finStep_pos cr hcr, ← applyColorList_eq_map]
        rfl
      · have hpd2 : padOn = false := by
          cases hx : padOn with
          | false => rfl
          | true => exact absurd hx hpd
        simp only [hpd2, Bool.false_eq_true, if_false]
        have hshape : ((false, clipDefs box (radiusOf box cr) (bufferFor pid)) ::
            ((false, bgRectFor box (radiusOf box cr) bgc) : MChild) ::
            (true, applyColorRec ic pid c0) ::
            (cs'.map fun ch => ((true, applyColorRec ic pid ch) : MChild))) =
            (([clipDefs box (radiusOf box cr) (bufferFor pid),
               bgRectFor box (radiusOf box cr) bgc].map fun x => ((false, x) : MChild)) ++
             ((c0 :: cs').map fun ch =>
               ((true, applyColorRec ic pid ch) : MChild))) := rfl
        rw [hshape, finStep_pos cr hcr, ← applyColorList_eq_map]
        rfl
    · have hbg2 : (bgc != "transparent") = false := by
        cases hx : (bgc != "transparent") with
        | false => rfl
        | true => exact absurd hx hbg
      simp only [hbg2, Bool.false_eq_true, if_false]
      by_cases hpd : padOn = true
      · simp only [hpd, if_true]
        rw [insertGuard_clip_nobg _ _ _ _ _ _ (by
          rw [show (((true, applyColorRec ic pid c0) ::
              (cs'.map fun ch => ((true, applyColorRec ic pid ch) : MChild))).map Prod.snd) =
              applyColorList ic pid (c0 :: cs') from hsndC]
          exact hbgC)]
        dsimp only
        have hshape : ((false, clipDefs box (radiusOf box cr) (bufferFor pid)) ::
            ((false, guardRectFor box (radiusOf box cr)) : MChild) ::
            (true, applyColorRec ic pid c0) ::
            (cs'.map fun ch => ((true, applyColorRec ic pid ch) : MChild))) =
            (([clipDefs box (radiusOf box cr) (bufferFor pid),
               guardRectFor box (radiusOf box cr)].map fun x => ((false, x) : MChild)) ++
             ((c0 :: cs').map fun ch =>
               ((true, applyColorRec ic pid ch) : MChild))) := rfl
        rw [hshape, finStep_pos cr hcr, ← applyColorList_eq_map]
        rfl
      · have hpd2 : padOn = false := by
          cases hx : padOn with
          | false => rfl
          | true => exact absurd hx hpd
        simp only [hpd2, Bool.false_eq_true, if_false]
        have hshape : ((false, clipDefs box (radiusOf box cr) (bufferFor pid)) ::
            (true, applyColorRec ic pid c0) ::
            (cs'.map fun ch => ((true, applyColorRec ic pid ch) : MChild))) =
            (([clipDefs box (radiusOf box cr) (bufferFor pid)].map
               fun x => ((false, x) : MChild)) ++
             ((c0 :: cs').map fun ch =>
               ((true, applyColorRec ic pid ch) : MChild))) := rfl
        rw [hshape, finStep_pos cr hcr, ← applyColorList_eq_map]
        rfl
  · have hcr2 : Q.lt 0 cr = false := by
      cases hx : Q.lt 0 cr with
      | false => rfl
      | true => exact absurd hx hcr
    have hms1 : msInit box ic cr pid (c0 :: cs') =
        (true, applyColorRec ic pid c0) ::
          cs'.map fun ch => ((true, applyColorRec ic pid ch) : MChild) := by
      unfold msInit
      simp only [hcr2, Bool.false_eq_true, if_false]
      rw [hcont, List.map_cons]
    rw [hms1]
    simp only [hcr2, Bool.false_eq_true, if_false]
    have hqdefs : qloc isDefsQ ((((true, applyColorRec ic pid c0) ::
        (cs'.map fun ch => ((true, applyColorRec ic pid ch) : MChild)))).map Prod.snd) =
        .missing := by
      rw [show ((((true, applyColorRec ic pid c0) ::
          (cs'.map fun ch => ((true, applyColorRec ic pid ch) : MChild)))).map Prod.snd) =
          applyColorList ic pid (c0 :: cs') from hsndC]
      exact qloc_missing_of isDefsQ _ hdefsC
    by_cases hbg : (bgc != "transparent") = true
    · simp only [hbg, if_true]
      rw [insertBg_missing _ _ hqdefs]
      dsimp only
      by_cases hpd : padOn = true
      · simp only [hpd, if_true]
        rw [insertGuard_bg_first _ _ _ _ (isBgQ_bgRect box (radiusOf box cr) bgc)]
        dsimp only
        rw [finStep_zero cr hcr2]
        simp only [List.map_cons, map_snd_marked, ← applyColorList_eq_map]
        rfl
      · have hpd2 : padOn = false := by
          cases hx : padOn with
          | false => rfl
          | true => exact absurd hx hpd
        simp only [hpd2, Bool.false_eq_true, if_false]
        rw [finStep_zero cr hcr2]
        simp only [List.map_cons, map_snd_marked, ← applyColorList_eq_map]
        rfl
    · have hbg2 : (bgc != "transparent") = false := by
        cases hx : (bgc != "transparent") with
        | false => rfl
        | true => exact absurd hx hbg
      simp only [hbg2, Bool.false_eq_true, if_false]
      have hqbg : qloc isBgQ ((((true, applyColorRec ic pid c0) ::
          (cs'.map fun ch => ((true, applyColorRec ic pid ch) : MChild)))).map Prod.snd) =
          .missing := by
        rw [show ((((true, applyColorRec ic pid c0) ::
            (cs'.map fun ch => ((true, applyColorRec ic pid ch) : MChild)))).map Prod.snd) =
            applyColorList ic pid (c0 :: cs') from hsndC]
        exact qloc_missing_of isBgQ _ hbgC
      by_cases hpd : padOn = true
      · simp only [hpd, if_true]
        rw [insertGuard_missing _ _ hqbg hqdefs]
        dsimp only
        rw [finStep_zero cr hcr2]
        simp only [List.map_cons, map_snd_marked, ← applyColorList_eq_map]
        rfl
      · have hpd2 : padOn = false := by
          cases hx : padOn with
          | false => rfl
          | true => exact absurd hx hpd
        simp only [hpd2, Bool.false_eq_true, if_false]
        rw [finStep_zero cr hcr2]
        simp only [List.map_cons, map_snd_marked, ← applyColorList_eq_map]
        rfl

theorem preOrderList_append : ∀ x y : List Elem,
    preOrderList (x ++ y) = preOrderList x ++ preOrderList y
  | [], _ => rfl
  | e :: r, y => by
    show preOrder e ++ preOrderList (r ++ y) = (preOrder e ++ preOrderList r) ++ _
    rw [preOrderList_append r y, List.append_assoc]

theorem filter_preOrder_nil (p : Elem → Bool) (l : List Elem) (h : anyList p l = false) :
    (preOrderList l).filter p = [] := by
  rw [anyList_eq_any_preOrder] at h
  exact List.filter_eq_nil.mpr (List.any_eq_false.mp h)

theorem isGuardB_bgRect (b : Box) (r : JsN) (c : String) :
    isGuardB (bgRectFor b r c) = false := by
  unfold isGuardB
  rw [show (bgRectFor b r c).getAttr "opacity" = none from rfl]
  rw [show ((none : Option String) == some "0.001") = false from rfl]
  exact Bool.and_false _

theorem isGuardB_guard (b : Box) (r : JsN) : isGuardB (guardRectFor b r) = true := rfl

theorem filter_guard_clip (b : Box) (r : JsN) (buf : Q) :
    (preOrder (clipDefs b r buf)).filter isGuardB = [] := rfl

/-- C4 (amended): with a non-transparent background and clean icon content
(no `defs`- or `rect`-tagged node anywhere), the background rectangle sits
immediately after the inserted clip-path `defs` when the corner radius is
positive, and is the document's first child otherwise — in both cases
strictly before every icon shape element in document order. -/
theorem c4_bg_paint_order (icon svg doc : Elem) (ic bgc : String)
    (size padding cr : Q) (pid : Option String)
    (hx : extractSvg icon = some svg)
    (hcl : anyList (fun x => (toLowerStr x.tag == "defs") || (x.tag == "rect"))
      svg.children = false)
    (hne : svg.children ≠ [])
    (hbg : (bgc != "transparent") = true)
    (hdoc : assembleE (some icon) ic bgc size padding cr pid = .ok (some doc)) :
    doc.children =
      (if Q.lt 0 cr then
        clipDefs (rootStage svg size padding).2 (radiusOf (rootStage svg size padding).2 cr)
            (bufferFor pid) ::
          bgRectFor (rootStage svg size padding).2
            (radiusOf (rootStage svg size padding).2 cr) bgc ::
          ((if paddingOn padding then
            [guardRectFor (rootStage svg size padding).2
              (radiusOf (rootStage svg size padding).2 cr)] else []) ++
           [Elem.mk "g" [("clip-path", "url(#rounded-corner-clip)")]
             (applyColorList ic pid svg.children)])
      else
        bgRectFor (rootStage svg size padding).2
            (radiusOf (rootStage svg size padding).2 cr) bgc ::
          ((if paddingOn padding then
            [guardRectFor (rootStage svg size padding).2
              (radiusOf (rootStage svg size padding).2 cr)] else []) ++
           applyColorList ic pid svg.children)) := by
  obtain ⟨fin, hbc, hdoc2⟩ :=
    assembleE_ok_elim icon svg doc ic bgc size padding cr pid hx hdoc
  rw [rootStage_children] at hbc
  rw [buildChildren_clean _ _ _ _ _ _ _ hcl hne] at hbc
  simp only [hbg, if_true] at hbc
  have hfin : fin = (if Q.lt 0 cr then
      clipDefs (rootStage svg size padding).2 (radiusOf (rootStage svg size padding).2 cr)
          (bufferFor pid) ::
        (([bgRectFor (rootStage svg size padding).2
            (radiusOf (rootStage svg size padding).2 cr) bgc] ++
          (if paddingOn padding then
            [guardRectFor (rootStage svg size padding).2
              (radiusOf (rootStage svg size padding).2 cr)] else [])) ++
         [Elem.mk "g" [("clip-path", "url(#rounded-corner-clip)")]
           (applyColorList ic pid svg.children)])
    else
      ([bgRectFor (rootStage svg size padding).2
          (radiusOf (rootStage svg size padding).2 cr) bgc] ++
        (if paddingOn padding then
          [guardRectFor (rootStage svg size padding).2
            (radiusOf (rootStage svg size padding).2 cr)] else [])) ++
       applyColorList ic pid svg.children) := by
    cases hbc
    rfl
  rw [hdoc2]
  show fin = _
  rw [hfin]
  by_cases hcr : Q.lt 0 cr = true
  · simp only [hcr, if_true, List.append_assoc, List.singleton_append, List.cons_append, List.nil_append]
  · have hcr2 : Q.lt 0 cr = false := by
      cases hx2 : Q.lt 0 cr with
      | false => rfl
      | true => exact absurd hx2 hcr
    simp only [hcr2, Bool.false_eq_true, if_false, List.append_assoc,
      List.singleton_append, List.cons_append, List.nil_append]

theorem preOrderList_cons (a : Elem) (l : List Elem) :
    preOrderList (a :: l) = preOrder a ++ preOrderList l := rfl

theorem preOrderList_nil : preOrderList [] = [] := rfl

theorem filter_guard_bg_piece (b : Box) (r : JsN) (c : String) :
    (preOrderList [bgRectFor b r c]).filter isGuardB = [] := by
  rw [preOrderList_cons, preOrderList_nil, List.append_nil,
    show preOrder (bgRectFor b r c) = [bgRectFor b r c] from rfl, List.filter_cons]
  simp only [isGuardB_bgRect, Bool.false_eq_true, if_false]
  rfl

theorem filter_guard_bg_cons (b : Box) (r : JsN) (c : String) (tail : List Elem) :
    (preOrderList (bgRectFor b r c :: tail)).filter isGuardB =
      (preOrderList tail).filter isGuardB := by
  rw [preOrderList_cons, show preOrder (bgRectFor b r c) = [bgRectFor b r c] from rfl,
    List.filter_append, List.filter_cons]
  simp only [isGuardB_bgRect, Bool.false_eq_true, if_false, List.filter_nil,
    List.nil_append]

theorem filter_guard_clip_cons (b : Box) (r : JsN) (buf : Q) (tail : List Elem) :
    (preOrderList (clipDefs b r buf :: tail)).filter isGuardB =
      (preOrderList tail).filter isGuardB := by
  rw [preOrderList_cons, List.filter_append, filter_guard_clip, List.nil_append]

theorem filter_guard_tail_g (ic : String) (pid : Option String) (cs : List Elem)
    (b : Box) (r : JsN)
    (hg : anyList isGuardB (applyColorList ic pid cs) = false) :
    (preOrderList (guardRectFor b r ::
      [Elem.mk "g" [("clip-path", "url(#rounded-corner-clip)")]
        (applyColorList ic pid cs)])).filter isGuardB = [guardRectFor b r] := by
  rw [preOrderList_cons, preOrderList_cons, preOrderList_nil, List.append_nil]
  rw [show preOrder (guardRectFor b r) = [guardRectFor b r] from rfl]
  rw [show preOrder (Elem.mk "g" [("clip-path", "url(#rounded-corner-clip)")]
    (applyColorList ic pid cs)) = Elem.mk "g" [("clip-path", "url(#rounded-corner-clip)")]
    (applyColorList ic pid cs) :: preOrderList (applyColorList ic pid cs) from rfl]
  rw [List.filter_append, List.filter_cons, List.filter_cons]
  simp only [isGuardB_guard, if_true]
  rw [show (isGuardB (Elem.mk "g" [("clip-path", "url(#rounded-corner-clip)")]
    (applyColorList ic pid cs)) : Bool) = false from rfl]
  simp only [Bool.false_eq_true, if_false]
  rw [filter_preOrder_nil isGuardB _ hg]
  rfl

theorem filter_guard_tail_direct (ic : String) (pid : Option String) (cs : List Elem)
    (b : Box) (r : JsN)
    (hg : anyList isGuardB (applyColorList ic pid cs) = false) :
    (preOrderList (guardRectFor b r :: applyColorList ic pid cs)).filter isGuardB =
      [guardRectFor b r] := by
  rw [preOrderList_cons, show preOrder (guardRectFor b r) = [guardRectFor b r] from rfl,
    List.filter_append, filter_preOrder_nil isGuardB _ hg, List.append_nil]
  rfl

/-- C2 (amended): with padding in `(0, 1/2]` and clean icon content (no
`defs`- or `rect`-tagged node anywhere), the document contains exactly one
guard rectangle — the one spanning the expanded view box — and it sits
after the background rectangle (when one exists) and before all icon
content. -/
theorem c2_guard_unique_position (icon svg doc : Elem) (ic bgc : String)
    (size padding cr : Q) (pid : Option String)
    (hx : extractSvg icon = some svg)
    (hcl : anyList (fun x => (toLowerStr x.tag == "defs") || (x.tag == "rect"))
      svg.children = false)
    (hne : svg.children ≠ [])
    (hpad : paddingOn padding = true)
    (hdoc : assembleE (some icon) ic bgc size padding cr pid = .ok (some doc)) :
    (preOrderList doc.children).filter isGuardB =
      [guardRectFor (rootStage svg size padding).2
        (radiusOf (rootStage svg size padding).2 cr)] ∧
    doc.children =
      (if Q.lt 0 cr then
        clipDefs (rootStage svg size padding).2 (radiusOf (rootStage svg size padding).2 cr)
            (bufferFor pid) ::
          ((if bgc != "transparent" then
            [bgRectFor (rootStage svg size padding).2
              (radiusOf (rootStage svg size padding).2 cr) bgc] else []) ++
           guardRectFor (rootStage svg size padding).2
             (radiusOf (rootStage svg size padding).2 cr) ::
           [Elem.mk "g" [("clip-path", "url(#rounded-corner-clip)")]
             (applyColorList ic pid svg.children)])
      else
        (if bgc != "transparent" then
          [bgRectFor (rootStage svg size padding).2
            (radiusOf (rootStage svg size padding).2 cr) bgc] else []) ++
        guardRectFor (rootStage svg size padding).2
          (radiusOf (rootStage svg size padding).2 cr) ::
        applyColorList ic pid svg.children) := by
  obtain ⟨fin, hbc, hdoc2⟩ :=
    assembleE_ok_elim icon svg doc ic bgc size padding cr pid hx hdoc
  rw [rootStage_children] at hbc
  rw [buildChildren_clean _ _ _ _ _ _ _ hcl hne] at hbc
  simp only [hpad, if_true] at hbc
  have hcolhaz : anyList (fun x => (toLowerStr x.tag == "defs") || (x.tag == "rect"))
      (applyColorList ic pid svg.children) = false := by
    rw [anyList_colorize ic pid (fun x => (toLowerStr x.tag == "defs") || (x.tag == "rect"))
      (fun t a c1 c2 => rfl) (fun x => by simp only [apsc_tag])]
    exact hcl
  have hguardC : anyList isGuardB (applyColorList ic pid svg.children) = false :=
    anyList_false_of_imp _ isGuardB
      (fun x hx2 => by rw [isGuardB_imp_rect x hx2]; exact Bool.or_true _) _ hcolhaz
  have hchn : doc.children = fin := by rw [hdoc2]; rfl
  have hfin : fin = (if Q.lt 0 cr then
      clipDefs (rootStage svg size padding).2 (radiusOf (rootStage svg size padding).2 cr)
          (bufferFor pid) ::
        ((if bgc != "transparent" then
          [bgRectFor (rootStage svg size padding).2
            (radiusOf (rootStage svg size padding).2 cr) bgc] else []) ++
         [guardRectFor (rootStage svg size padding).2
           (radiusOf (rootStage svg size padding).2 cr)] ++
         [Elem.mk "g" [("clip-path", "url(#rounded-corner-clip)")]
           (applyColorList ic pid svg.children)])
    else
      (if bgc != "transparent" then
        [bgRectFor (rootStage svg size padding).2
          (radiusOf (rootStage svg size padding).2 cr) bgc] else []) ++
      [guardRectFor (rootStage svg size padding).2
        (radiusOf (rootStage svg size padding).2 cr)] ++
      applyColorList ic pid svg.children) := by
    cases hbc
    rfl
  constructor
  · rw [hchn, hfin]
    by_cases hcr : Q.lt 0 cr = true
    · simp only [hcr, if_true]
      by_cases hbgc : (bgc != "transparent") = true
      · simp only [hbgc, if_true]
        rw [List.append_assoc, List.singleton_append, List.singleton_append,
          filter_guard_clip_cons, filter_guard_bg_cons,
          filter_guard_tail_g _ _ _ _ _ hguardC]
      · have hbgc2 : (bgc != "transparent") = false := by
          cases hx2 : (bgc != "transparent") with
          | false => rfl
          | true => exact absurd hx2 hbgc
        simp only [hbgc2, Bool.false_eq_true, if_false, List.nil_append]
        rw [List.singleton_append, filter_guard_clip_cons,
          filter_guard_tail_g _ _ _ _ _ hguardC]
    · have hcr2 : Q.lt 0 cr = false := by
        cases hx2 : Q.lt 0 cr with
        | false => rfl
        | true => exact absurd hx2 hcr
      simp only [hcr2, Bool.false_eq_true, if_false]
      by_cases hbgc : (bgc != "transparent") = true
      · simp only [hbgc, if_true]
        rw [List.append_assoc, List.singleton_append, List.singleton_append,
          filter_guard_bg_cons, filter_guard_tail_direct _ _ _ _ _ hguardC]
      · have hbgc2 : (bgc != "transparent") = false := by
          cases hx2 : (bgc != "transparent") with
          | false => rfl
          | true => exact absurd hx2 hbgc
        simp only [hbgc2, Bool.false_eq_true, if_false, List.nil_append]
        rw [List.singleton_append, filter_guard_tail_direct _ _ _ _ _ hguardC]
  · rw [hchn, hfin]
    by_cases hcr : Q.lt 0 cr = true
    · simp only [hcr, if_true, List.append_assoc, List.singleton_append]
    · have hcr2 : Q.lt 0 cr = false := by
        cases hx2 : Q.lt 0 cr with
        | false => rfl
        | true => exact absurd hx2 hcr
      simp only [hcr2, Bool.false_eq_true, if_false, List.append_assoc,
        List.singleton_append]

/-- C8 (amended): `ok none` (the `return null` path) happens exactly when
there is no extractable vector root; and on clean content (no `defs`- or
`rect`-tagged node anywhere, nonempty children) the assembler always
returns a document — it does not throw. -/
theorem c8_null_iff_and_total (ic bgc : String) (size padding cr : Q)
    (pid : Option String) (icon svg : Elem)
    (hx : extractSvg icon = some svg)
    (hcl : anyList (fun x => (toLowerStr x.tag == "defs") || (x.tag == "rect"))
      svg.children = false)
    (hne : svg.children ≠ []) :
    (∀ ie : Option Elem, assembleE ie ic bgc size padding cr pid = .ok none ↔
      ie = none ∨ ∃ el, ie = some el ∧ extractSvg el = none) ∧
    ∃ d, assembleE (some icon) ic bgc size padding cr pid = .ok (some d) := by
  constructor
  · intro ie
    cases ie with
    | none => simp [assembleE]
    | some el =>
      cases hext : extractSvg el with
      | none =>
        simp only [assembleE, hext]
        constructor
        · intro _
          exact Or.inr ⟨el, rfl, hext⟩
        · intro _
          trivial
      | some s =>
        simp only [assembleE, hext]
        constructor
        · intro h
          cases hcore : assembleCore s ic bgc size padding cr pid with
          | error u => rw [hcore] at h; simp [Except.map] at h
          | ok d => rw [hcore] at h; simp [Except.map] at h
        · rintro (h | ⟨el2, he, hx2⟩)
          · cases h
          · have hee : el2 = el := (Option.some.inj he).symm
            subst hee
            rw [hext] at hx2
            cases hx2
  · refine ⟨Elem.mk (rootStage svg size padding).1.tag
      (rootStage svg size padding).1.attrs
      (if Q.lt 0 cr then
        clipDefs (rootStage svg size padding).2
            (radiusOf (rootStage svg size padding).2 cr) (bufferFor pid) ::
          ((if bgc != "transparent" then
            [bgRectFor (rootStage svg size padding).2
              (radiusOf (rootStage svg size padding).2 cr) bgc] else []) ++
           (if paddingOn padding then
            [guardRectFor (rootStage svg size padding).2
              (radiusOf (rootStage svg size padding).2 cr)] else []) ++
           [Elem.mk "g" [("clip-path", "url(#rounded-corner-clip)")]
             (applyColorList ic pid svg.children)])
      else
        (if bgc != "transparent" then
          [bgRectFor (rootStage svg size padding).2
            (radiusOf (rootStage svg size padding).2 cr) bgc] else []) ++
        (if paddingOn padding then
          [guardRectFor (rootStage svg size padding).2
            (radiusOf (rootStage svg size padding).2 cr)] else []) ++
        applyColorList ic pid svg.children), ?_⟩
    have hbc := buildChildren_clean (rootStage svg size padding).2 ic bgc cr
      (paddingOn padding) pid svg.children hcl hne
    simp only [assembleE, hx, assembleCore]
    rw [rootStage_children, hbc]
    rfl

/-- C2: counterexample — on an icon whose first child is a `rect`, the
guard rectangle is inserted after that colorized rectangle, so an icon
shape element precedes the guard in document order. -/
theorem c2_guard_after_shape_cex :
    assembleE (some wIcon2) "#ff0000" "transparent" 64 ⟨1, 10⟩ 0 (some "feather") =
      .ok (some wDoc2) ∧
    scanBefore isShapeB isGuardB wDoc2.children = true := ⟨by rfl, by decide⟩

/-- C4: counterexample — on an icon `[path, defs]` the `defs` has no next
sibling, the background lands at the second position, and the colorized
`path` precedes the background rectangle in document order. -/
theorem c4_bg_after_shape_cex :
    assembleE (some wIcon4c) "#ff0000" "#112233" 64 0 0 (some "feather") =
      .ok (some wDoc4) ∧
    scanBefore isShapeB
      (fun e => e.tag == "rect" && (e.getAttr "fill" == some "#112233"))
      wDoc4.children = true := ⟨by rfl, by decide⟩

/-- C8: counterexample — a nested `defs` with a next sibling makes the
background insertion call `insertBefore` with a reference node that is not
a child of the root, which throws a DOM `NotFoundError`. -/
theorem c8_throws_cex :
    assembleE (some wIcon8) "#ff0000" "#112233" 64 0 0 none = .error () := by rfl

/-- Witness for the amended C2 at a concrete two-shape icon. -/
theorem c2_guard_unique_position_witness :
    (extractSvg wIconC = some wIconC ∧ paddingOn ⟨1, 10⟩ = true ∧
      assembleE (some wIconC) "#00ff00" "#000000" 64 ⟨1, 10⟩ 0 (some "feather") =
        .ok (some wDocC2)) ∧
    (preOrderList wDocC2.children).filter isGuardB =
      [guardRectFor (rootStage wIconC 64 ⟨1, 10⟩).2
        (radiusOf (rootStage wIconC 64 ⟨1, 10⟩).2 0)] := by
  refine ⟨⟨by decide, by decide, by rfl⟩, ?_⟩
  exact (c2_guard_unique_position wIconC wIconC wDocC2 "#00ff00" "#000000" 64 ⟨1, 10⟩ 0
    (some "feather") (by decide) (by decide) (by decide) (by decide) (by rfl)).1

/-- Witness for the amended C4 at a concrete two-shape icon. -/
theorem c4_bg_paint_order_witness :
    (extractSvg wIconC = some wIconC ∧ ("#112233" != "transparent") = true ∧
      assembleE (some wIconC) "#00ff00" "#112233" 64 ⟨1, 10⟩ 25 (some "feather") =
        .ok (some wDocC4)) ∧
    wDocC4.children =
      (if Q.lt 0 (25 : Q) then
        clipDefs (rootStage wIconC 64 ⟨1, 10⟩).2 (radiusOf (rootStage wIconC 64 ⟨1, 10⟩).2 25)
            (bufferFor (some "feather")) ::
          bgRectFor (rootStage wIconC 64 ⟨1, 10⟩).2
            (radiusOf (rootStage wIconC 64 ⟨1, 10⟩).2 25) "#112233" ::
          ((if paddingOn ⟨1, 10⟩ then
            [guardRectFor (rootStage wIconC 64 ⟨1, 10⟩).2
              (radiusOf (rootStage wIconC 64 ⟨1, 10⟩).2 25)] else []) ++
           [Elem.mk "g" [("clip-path", "url(#rounded-corner-clip)")]
             (applyColorList "#00ff00" (some "feather") wIconC.children)])
      else
        bgRectFor (rootStage wIconC 64 ⟨1, 10⟩).2
            (radiusOf (rootStage wIconC 64 ⟨1, 10⟩).2 25) "#112233" ::
          ((if paddingOn ⟨1, 10⟩ then
            [guardRectFor (rootStage wIconC 64 ⟨1, 10⟩).2
              (radiusOf (rootStage wIconC 64 ⟨1, 10⟩).2 25)] else []) ++
           applyColorList "#00ff00" (some "feather") wIconC.children)) := by
  refine ⟨⟨by decide, by decide, by rfl⟩, ?_⟩
  exact c4_bg_paint_order wIconC wIconC wDocC4 "#00ff00" "#112233" 64 ⟨1, 10⟩ 25
    (some "feather") (by decide) (by decide) (by decide) (by decide) (by rfl)

/-- Witness for the amended C8 at a concrete two-shape icon. -/
theorem c8_null_iff_and_total_witness :
    (∀ ie : Option Elem, assembleE ie "#00ff00" "#123456" 64 ⟨1, 10⟩ 25 none = .ok none ↔
      ie = none ∨ ∃ el, ie = some el ∧ extractSvg el = none) ∧
    ∃ d, assembleE (some wIconC) "#00ff00" "#123456" 64 ⟨1, 10⟩ 25 none = .ok (some d) := by
  exact c8_null_iff_and_total "#00ff00" "#123456" 64 ⟨1, 10⟩ 25 none wIconC wIconC
    (by decide) (by decide) (by decide)

theorem startsWithL_append : ∀ p t : List Char, startsWithL p (p ++ t) = true
  | [], _ => rfl
  | c :: r, t => by
    show (c == c && startsWithL r (r ++ t)) = true
    rw [startsWithL_append r t, beq_self_eq_true]
    rfl

theorem xrepl_safe : ∀ p t : List Char, p.all (fun c => !(c == '<')) = true →
    xrepl (p ++ t) = p ++ xrepl t
  | [], _, _ => rfl
  | c :: r, t, hp => by
    rcases Bool.and_eq_true_iff.mp (by rwa [List.all_cons] at hp) with ⟨hc, hr⟩
    have hc2 : (c == '<') = false := by
      cases hx : (c == '<') with
      | false => rfl
      | true => rw [hx] at hc; cases hc
    have hne : ('<' == c) = false := by
      cases hx : ('<' == c) with
      | false => rfl
      | true =>
        have he : '<' = c := eq_of_beq hx
        rw [← he, beq_self_eq_true] at hc2
        cases hc2
    have hsw : startsWithL ("<svg").data (c :: (r ++ t)) = false := by
      show (('<' == c) && startsWithL ("svg").data (r ++ t)) = false
      rw [hne, Bool.false_and]
    show xrepl (c :: (r ++ t)) = c :: (r ++ xrepl t)
    simp only [xrepl, hsw, Bool.false_eq_true, if_false]
    rw [xrepl_safe r t hr]

theorem xrepl_ltq (u : List Char) : xrepl ('<' :: '?' :: u) = '<' :: '?' :: xrepl u := by
  have h1 : startsWithL ("<svg").data ('<' :: '?' :: u) = false := by
    show (('<' == '<') && (('s' == '?') && startsWithL (['v', 'g'] : List Char) u)) = false
    rw [show (('s' == '?') : Bool) = false from rfl, Bool.false_and, Bool.and_false]
  have h2 : startsWithL ("<svg").data ('?' :: u) = false := by
    show (('<' == '?') && startsWithL (['s', 'v', 'g'] : List Char) u) = false
    rw [show (('<' == '?') : Bool) = false from rfl, Bool.false_and]
  simp only [xrepl, h1, h2, Bool.false_eq_true, if_false]

theorem xrepl_xmlDecl (u : List Char) :
    xrepl (xmlDecl.data ++ u) = xmlDecl.data ++ xrepl u := by
  have key := xrepl_ltq ((("xml version=\"1.0\" encoding=\"UTF-8\"?>").data) ++ u)
  have hsafe := xrepl_safe (("xml version=\"1.0\" encoding=\"UTF-8\"?>").data) u (by decide)
  calc xrepl (xmlDecl.data ++ u)
      = xrepl ('<' :: '?' :: ((("xml version=\"1.0\" encoding=\"UTF-8\"?>").data) ++ u)) :=
        rfl
    _ = '<' :: '?' :: xrepl ((("xml version=\"1.0\" encoding=\"UTF-8\"?>").data) ++ u) :=
        key
    _ = '<' :: '?' :: ((("xml version=\"1.0\" encoding=\"UTF-8\"?>").data) ++ xrepl u) := by
        rw [hsafe]
    _ = xmlDecl.data ++ xrepl u := rfl

theorem xrepl_svg (u att after : List Char)
    (h : startsWithL ("<svg").data u = true)
    (hgt : findGt (u.drop 4) = some (att, after)) :
    xrepl u = ("<svg").data ++ att ++ xmlnsIns ++ ('>' :: after) := by
  cases u with
  | nil => cases h
  | cons c rest =>
    simp only [xrepl, h, if_true]
    rw [hgt]

theorem containsSub_self_append (p t : List Char) : containsSub p (p ++ t) = true := by
  cases hp : p ++ t with
  | nil =>
    rcases List.append_eq_nil.mp hp with ⟨h1, h2⟩
    subst h1; subst h2
    rfl
  | cons c r =>
    simp only [containsSub]
    rw [← hp, startsWithL_append]
    rfl

theorem containsSub_append_left (p a t : List Char) (h : containsSub p t = true) :
    containsSub p (a ++ t) = true := by
  induction a with
  | nil => simpa using h
  | cons c r ih =>
    show containsSub p (c :: (r ++ t)) = true
    simp only [containsSub]
    rw [ih]
    exact Bool.or_true _

/-- C9: counterexample — an input whose declaration is `<?xml version="1.1"`
is left untouched (it already starts with `<?xml`), so the clipboard text
does not begin with the version 1.0 declaration; and since the input
contains `xmlns:` (a prefixed namespace only), no default `xmlns=` is
added either. -/
theorem c9_clipboard_cex :
    startsWithL xmlDecl.data (prepareSvgForClipboard wSvg9).data = false ∧
    containsSub ("xmlns=").data (prepareSvgForClipboard wSvg9).data = false := by decide

/-- C9 (amended): when the trimmed input does not already start with
`<?xml`, has no `xmlns=`/`xmlns:` declaration, and opens with an
`<svg ...>` tag, the prepared clipboard text begins with the exact
`<?xml version="1.0" encoding="UTF-8"?>` declaration and contains the
inserted default `xmlns` attribute. -/
theorem c9_clipboard_amended (s : String) (att after : List Char)
    (hd : startsWithL ("<?xml").data (trimStr s).data = false)
    (h1 : containsSub ("xmlns=").data (xmlDecl ++ s).data = false)
    (h2 : containsSub ("xmlns:").data (xmlDecl ++ s).data = false)
    (hsv : startsWithL ("<svg").data s.data = true)
    (hgt : findGt (s.data.drop 4) = some (att, after)) :
    startsWithL xmlDecl.data (prepareSvgForClipboard s).data = true ∧
    containsSub xmlnsIns (prepareSvgForClipboard s).data = true := by
  have hpre : prepareSvgForClipboard s = String.mk (xrepl (xmlDecl ++ s).data) := by
    unfold prepareSvgForClipboard
    dsimp only
    simp only [hd, Bool.not_false, if_true]
    simp only [h1, h2, Bool.not_false, Bool.and_self, if_true]
  rw [hpre]
  have hdata : (String.mk (xrepl (xmlDecl ++ s).data)).data = xrepl (xmlDecl ++ s).data :=
    rfl
  rw [hdata]
  have hxd : (xmlDecl ++ s).data = xmlDecl.data ++ s.data := String.data_append _ _
  rw [hxd, xrepl_xmlDecl, xrepl_svg s.data att after hsv hgt]
  constructor
  · exact startsWithL_append _ _
  · apply containsSub_append_left
    rw [List.append_assoc]
    apply containsSub_append_left
    exact containsSub_self_append _ _

/-- Witness for the amended C9 at a concrete bare `<svg>` document. -/
theorem c9_clipboard_amended_witness :
    (startsWithL ("<?xml").data (trimStr wSvg9b).data = false ∧
     startsWithL ("<svg").data wSvg9b.data = true) ∧
    (startsWithL xmlDecl.data (prepareSvgForClipboard wSvg9b).data = true ∧
     containsSub xmlnsIns (prepareSvgForClipboard wSvg9b).data = true) := by
  refine ⟨⟨by decide, by decide⟩, ?_⟩
  exact c9_clipboard_amended wSvg9b ((" viewBox=\"0 0 24 24\"").data) (("</svg>").data)
    (by decide) (by decide) (by decide) (by decide) (by decide)

end CpIcons
